import Mathlib

/-!
Verification development for the MaRDI DOIP server.

This file gives a shallow embedding, over lists of natural numbers standing
for byte strings, of the wire codec (`doip_server/protocol.py`), the sharded
key derivation (`doip_shared/sharding.py`, `doip_server/storage_lakefs.py`),
the operation handlers (`doip_server/handlers.py`, `doip_server/object_registry.py`)
and the dispatcher and compat listener (`doip_server/main.py`), and proves or
refutes the specification's claims about them.

Modelling conventions:
- Python `bytes` values are `List Nat` (each entry a byte value).
- Python `str` values are also `List Nat`, holding the UTF-8 bytes of the
  string; `.encode("utf-8")`/`.decode("utf-8")` are the identity in the model
  (validity of UTF-8 is not tracked; all concrete inputs used in theorems are
  ASCII). Case mapping (`str.upper`/`str.lower`) and `str.isdigit` are
  modelled on the ASCII range, which covers every identifier the code accepts.
- JSON values (Python dicts produced by the `json` standard library) are the
  inductive `JVal`; `json.dumps`/`json.loads` are modelled by `dumps`/`loads`
  below on the JSON fragment exercised by the repository: numbers are
  integers (no floats), object keys are kept in insertion order, duplicate
  keys are not collapsed.  `json`, `httpx`, `boto3`, the RO-Crate builder and
  the workflow engine are external collaborators; the last three enter the
  model as components of an `Env` record.
- Exceptions become the `PyErr` sum; functions that can raise return
  `Except PyErr`.
-/

namespace Doip

/-- ASCII decimal digit test, modelling `str.isdigit` on the ASCII range. -/
def isDigitB (b : Nat) : Bool := 48 ≤ b && b ≤ 57

/-- ASCII upper-casing of one byte, modelling `str.upper` per character. -/
def byteUpper (b : Nat) : Nat := if 97 ≤ b && b ≤ 122 then b - 32 else b

/-- ASCII lower-casing of one byte, modelling `str.lower` per character. -/
def byteLower (b : Nat) : Nat := if 65 ≤ b && b ≤ 90 then b + 32 else b

/-- Model of Python `s.upper()` on a byte string. -/
def pyUpperB (s : List Nat) : List Nat := s.map byteUpper

/-- Model of Python `s.lower()` on a byte string. -/
def pyLowerB (s : List Nat) : List Nat := s.map byteLower

/-- UTF-8 encoding of a single Unicode code point. -/
def utf8Char (n : Nat) : List Nat :=
  if n < 128 then [n]
  else if n < 2048 then [192 + n / 64, 128 + n % 64]
  else if n < 65536 then [224 + n / 4096, 128 + n / 64 % 64, 128 + n % 64]
  else [240 + n / 262144, 128 + n / 4096 % 64, 128 + n / 64 % 64, 128 + n % 64]

/-- UTF-8 bytes of a Lean string literal; used to write the byte strings the
Python source spells as string literals. -/
def bs (s : String) : List Nat :=
  s.data.foldr (fun c acc => utf8Char c.toNat ++ acc) []

/-- Big-endian 16-bit encoding, as produced by `struct.pack(">H", n)`. -/
def be16 (n : Nat) : List Nat := [n / 256 % 256, n % 256]

/-- Big-endian 32-bit encoding, as produced by `struct.pack(">I", n)`. -/
def be32 (n : Nat) : List Nat :=
  [n / 16777216 % 256, n / 65536 % 256, n / 256 % 256, n % 256]

/-- Big-endian 16-bit value of two bytes. -/
def rd16 (a b : Nat) : Nat := a * 256 + b

/-- Big-endian 32-bit value of four bytes. -/
def rd32 (a b c d : Nat) : Nat := ((a * 256 + b) * 256 + c) * 256 + d

/-- Big-endian 16-bit value read at an offset (0 when out of range);
only used to state theorems about component-block bodies. -/
def rd16at (s : List Nat) (i : Nat) : Nat := rd16 (s.getD i 0) (s.getD (i + 1) 0)

/-- Big-endian 32-bit value read at an offset (0 when out of range);
only used to state theorems about component-block bodies. -/
def rd32at (s : List Nat) (i : Nat) : Nat :=
  rd32 (s.getD i 0) (s.getD (i + 1) 0) (s.getD (i + 2) 0) (s.getD (i + 3) 0)

theorem rd16_be16 (n : Nat) (h : n < 65536) :
    rd16 (n / 256 % 256) (n % 256) = n := by
  simp only [rd16]
  omega

theorem rd32_be32 (n : Nat) (h : n < 4294967296) :
    rd32 (n / 16777216 % 256) (n / 65536 % 256) (n / 256 % 256) (n % 256) = n := by
  simp only [rd32]
  omega

/-! ### JSON values

`JVal` models the JSON values handled by the Python `json` module, with
bespoke list types `JArr`/`JObj` so that recursion over values stays
structural.  Object entries keep insertion order, as Python dicts do. -/

mutual
inductive JVal where
  | null : JVal
  | jbool (b : Bool) : JVal
  | num (n : Int) : JVal
  | str (s : List Nat) : JVal
  | arr (xs : JArr) : JVal
  | obj (kvs : JObj) : JVal
deriving DecidableEq

inductive JArr where
  | nil : JArr
  | cons (hd : JVal) (tl : JArr) : JArr
deriving DecidableEq

inductive JObj where
  | nil : JObj
  | cons (key : List Nat) (val : JVal) (tl : JObj) : JObj
deriving DecidableEq
end

/-- Build a `JArr` from a Lean list. -/
def jarrOf : List JVal → JArr
  | [] => .nil
  | v :: t => .cons v (jarrOf t)

/-- Build a `JObj` from a Lean association list. -/
def jobjOf : List (List Nat × JVal) → JObj
  | [] => .nil
  | (k, v) :: t => .cons k v (jobjOf t)

/-- Lookup in a JSON object, modelling `dict.get(key)` (returns the first
binding; the model keeps keys unique wherever it mirrors a Python dict). -/
def JObj.get : JObj → List Nat → Option JVal
  | .nil, _ => none
  | .cons k v t, key => if k = key then some v else JObj.get t key

/-- The keys of a JSON object, in order. -/
def JObj.keys : JObj → List (List Nat)
  | .nil => []
  | .cons k _ t => k :: JObj.keys t

/-- Python truthiness of a JSON value (`bool(v)`). -/
def jTruthy : JVal → Bool
  | .null => false
  | .jbool b => b
  | .num n => n ≠ 0
  | .str s => s ≠ []
  | .arr xs => xs ≠ .nil
  | .obj kvs => kvs ≠ .nil

/-- Python truthiness of `dict.get`'s result (`None` is falsy). -/
def jTruthyO : Option JVal → Bool
  | none => false
  | some v => jTruthy v

/-- Model of `a or b` for two `dict.get` results. -/
def pyOrO (a b : Option JVal) : Option JVal := if jTruthyO a then a else b

/-! ### JSON serialization (model of `json.dumps`)

The repository serializes with `json.dumps(data, separators=(",", ":"),
ensure_ascii=False)` for wire blocks and with plain `json.dumps(data)`
(default separators `", "`/`": "`) for compat segments; `dumpsWith` takes the
two separators as parameters. -/

/-- One hexadecimal digit character (lower case), as Python prints it. -/
def hexDigit (d : Nat) : Nat := if d < 10 then 48 + d else 87 + d

/-- JSON string escaping of one byte: quote and backslash are escaped,
control characters get their short escapes or a `u00XX` escape, everything
else (including UTF-8 continuation bytes) passes through. -/
def escByte (b : Nat) : List Nat :=
  if b = 34 then [92, 34]
  else if b = 92 then [92, 92]
  else if b < 32 then
    if b = 8 then [92, 98]
    else if b = 9 then [92, 116]
    else if b = 10 then [92, 110]
    else if b = 12 then [92, 102]
    else if b = 13 then [92, 114]
    else [92, 117, 48, 48, hexDigit (b / 16), hexDigit (b % 16)]
  else [b]

/-- JSON string escaping of a byte string. -/
def escStr (s : List Nat) : List Nat := s.foldr (fun b acc => escByte b ++ acc) []

/-- A JSON string literal: quote, escaped content, quote. -/
def quoteStr (s : List Nat) : List Nat := 34 :: escStr s ++ [34]

/-- Decimal digits of a natural number, most significant first, with fuel
(structural recursion so that proofs can evaluate it). -/
def natDecAux : Nat → Nat → List Nat
  | 0, _ => []
  | f + 1, n => if n < 10 then [48 + n] else natDecAux f (n / 10) ++ [48 + n % 10]

/-- Decimal digits of a natural number (`str(n)` for `n ≥ 0`). -/
def natDec (n : Nat) : List Nat := natDecAux (n + 1) n

/-- Decimal rendering of an integer (`str(i)`). -/
def intDec (i : Int) : List Nat :=
  if i < 0 then 45 :: natDec i.natAbs else natDec i.natAbs

/-- Value of a list of decimal digit bytes. -/
def digitsVal (ds : List Nat) : Nat := ds.foldl (fun a b => a * 10 + (b - 48)) 0

mutual
/-- Model of `json.dumps` with item separator `isep` and key separator
`ksep`, on the integer-numbered JSON fragment. -/
def dumpsWith (isep ksep : List Nat) : JVal → List Nat
  | .null => bs "null"
  | .jbool true => bs "true"
  | .jbool false => bs "false"
  | .num n => intDec n
  | .str s => quoteStr s
  | .arr xs => 91 :: dumpsItems isep ksep xs ++ [93]
  | .obj kvs => 123 :: dumpsEntries isep ksep kvs ++ [125]

/-- Array items joined by the item separator (no brackets). -/
def dumpsItems (isep ksep : List Nat) : JArr → List Nat
  | .nil => []
  | .cons v .nil => dumpsWith isep ksep v
  | .cons v (.cons w t) =>
    dumpsWith isep ksep v ++ isep ++ dumpsItems isep ksep (.cons w t)

/-- Object entries `"key"<ksep>value` joined by the item separator. -/
def dumpsEntries (isep ksep : List Nat) : JObj → List Nat
  | .nil => []
  | .cons k v .nil => quoteStr k ++ ksep ++ dumpsWith isep ksep v
  | .cons k v (.cons k2 v2 t) =>
    quoteStr k ++ ksep ++ dumpsWith isep ksep v ++ isep ++
      dumpsEntries isep ksep (.cons k2 v2 t)
end

/-- `json.dumps(data, separators=(",", ":"), ensure_ascii=False)`, the compact
form used for metadata and workflow block bodies. -/
def dumpsC (j : JVal) : List Nat := dumpsWith [44] [58] j

/-- `json.dumps(data)` with default separators, used by `_json_segment` in
`doip_server/main.py` for compat response segments. -/
def dumpsPy (j : JVal) : List Nat := dumpsWith [44, 32] [58, 32] j

/-- Text rendered for a JSON value interpolated into an f-string
(`str(v)` in Python); faithful for the string and integer values the
repository puts there. -/
def jToPyStr : JVal → List Nat
  | .str s => s
  | .num n => intDec n
  | .jbool true => bs "True"
  | .jbool false => bs "False"
  | .null => bs "None"
  | .arr _ => bs "<list>"
  | .obj _ => bs "<dict>"

/-! ### JSON parsing (model of `json.loads`)

A fueled recursive-descent parser over byte lists.  It accepts the
integer-numbered JSON fragment: all outputs of `dumpsWith` parse back
(proved below).  Divergences from CPython's `json.loads`, all outside what
the repository feeds it on the paths settled here: float syntax is not
parsed, duplicate object keys are kept rather than collapsed, leading zeros
in numbers are accepted, and invalid UTF-8 (which would raise
`UnicodeDecodeError` before `json.loads` runs) is not detected. -/

/-- Whitespace skipping, as `json.loads` does between tokens. -/
def skipWs (s : List Nat) : List Nat :=
  s.dropWhile (fun b => b = 32 || b = 9 || b = 10 || b = 13)

/-- Value of one hex digit byte, if it is one. -/
def hx (b : Nat) : Option Nat :=
  if 48 ≤ b && b ≤ 57 then some (b - 48)
  else if 97 ≤ b && b ≤ 102 then some (b - 87)
  else if 65 ≤ b && b ≤ 70 then some (b - 55)
  else none

/-- Byte substituted for a single-character escape, if the byte after the
backslash introduces one. -/
def escTable (e : Nat) : Option Nat :=
  if e = 34 then some 34
  else if e = 92 then some 92
  else if e = 47 then some 47
  else if e = 98 then some 8
  else if e = 102 then some 12
  else if e = 110 then some 10
  else if e = 114 then some 13
  else if e = 116 then some 9
  else none

/-- Decode one escape sequence found after a backslash: the bytes it stands
for and the remaining input. -/
def unescape1 (rest : List Nat) : Option (List Nat × List Nat) :=
  match rest with
  | [] => none
  | e :: r =>
    match escTable e with
    | some c => some ([c], r)
    | none =>
      if e = 117 then
        match r with
        | h1 :: h2 :: h3 :: h4 :: r2 =>
          match hx h1, hx h2, hx h3, hx h4 with
          | some a, some b2, some c, some d =>
            some (utf8Char (a * 4096 + b2 * 256 + c * 16 + d), r2)
          | _, _, _, _ => none
        | _ => none
      else none

/-- Parse the remainder of a JSON string after the opening quote, returning
the unescaped content bytes and the rest of the input; fueled so that the
recursion is structural (the input length plus one always suffices). -/
def parseStrF : Nat → List Nat → Option (List Nat × List Nat)
  | 0, _ => none
  | _ + 1, [] => none
  | f + 1, b :: rest =>
    if b = 34 then some ([], rest)
    else if b = 92 then
      (unescape1 rest).bind fun u =>
        (parseStrF f u.2).map (fun p => (u.1 ++ p.1, p.2))
    else if b < 32 then none
    else (parseStrF f rest).map (fun p => (b :: p.1, p.2))

/-- Parse a JSON string body with enough fuel for the whole input. -/
def parseStr (s : List Nat) : Option (List Nat × List Nat) :=
  parseStrF (s.length + 1) s

/-- Parse a nonempty run of decimal digits into its value. -/
def parseNat (s : List Nat) : Option (Nat × List Nat) :=
  let ds := s.takeWhile isDigitB
  if ds = [] then none else some (digitsVal ds, s.dropWhile isDigitB)

/-- Parse an (integer) JSON number. -/
def parseNumber (s : List Nat) : Option (JVal × List Nat) :=
  if s.head? = some 45 then (parseNat s.tail).map (fun p => (.num (-(p.1 : Int)), p.2))
  else (parseNat s).map (fun p => (.num (p.1 : Int), p.2))

mutual
/-- Parse one JSON value; fuel bounds the recursion depth (the length of the
input plus one always suffices, proved below for serialized values). -/
def parseVal : Nat → List Nat → Option (JVal × List Nat)
  | 0, _ => none
  | f + 1, input =>
    match skipWs input with
    | [] => none
    | b :: rest =>
      if b = 110 then
        if rest.take 3 = [117, 108, 108] then some (.null, rest.drop 3) else none
      else if b = 116 then
        if rest.take 3 = [114, 117, 101] then some (.jbool true, rest.drop 3) else none
      else if b = 102 then
        if rest.take 4 = [97, 108, 115, 101] then some (.jbool false, rest.drop 4) else none
      else if b = 34 then (parseStr rest).map (fun p => (.str p.1, p.2))
      else if b = 91 then
        let r2 := skipWs rest
        if r2.head? = some 93 then some (.arr .nil, r2.tail)
        else (parseItems f r2).map (fun p => (.arr p.1, p.2))
      else if b = 123 then
        let r2 := skipWs rest
        if r2.head? = some 125 then some (.obj .nil, r2.tail)
        else (parseEntries f r2).map (fun p => (.obj p.1, p.2))
      else parseNumber (b :: rest)

/-- Parse the items of a nonempty array up to and including the closing
bracket. -/
def parseItems : Nat → List Nat → Option (JArr × List Nat)
  | 0, _ => none
  | f + 1, input =>
    (parseVal f input).bind fun p =>
      let r := skipWs p.2
      if r.head? = some 44 then (parseItems f r.tail).map (fun q => (.cons p.1 q.1, q.2))
      else if r.head? = some 93 then some (.cons p.1 .nil, r.tail)
      else none

/-- Parse the entries of a nonempty object up to and including the closing
brace. -/
def parseEntries : Nat → List Nat → Option (JObj × List Nat)
  | 0, _ => none
  | f + 1, input =>
    let r := skipWs input
    if r.head? = some 34 then
      (parseStr r.tail).bind fun kp =>
        let r2 := skipWs kp.2
        if r2.head? = some 58 then
          (parseVal f r2.tail).bind fun vp =>
            let r4 := skipWs vp.2
            if r4.head? = some 44 then
              (parseEntries f r4.tail).map (fun q => (.cons kp.1 vp.1 q.1, q.2))
            else if r4.head? = some 125 then some (.cons kp.1 vp.1 .nil, r4.tail)
            else none
        else none
    else none
end

/-- Model of `json.loads` on a byte string: parse one value, allow trailing
whitespace, reject anything else. -/
def loads (s : List Nat) : Option JVal :=
  match parseVal (s.length + 1) s with
  | some (v, rest) => if skipWs rest = [] then some v else none
  | none => none

/-! ### Round-trip of the JSON model: `loads` is a left inverse of `dumpsC` -/

/-- Nat strings that do not start with a decimal digit; serialized values
followed by such a remainder parse back unambiguously. -/
def ndsB (s : List Nat) : Bool :=
  match s.head? with
  | some b => !isDigitB b
  | none => true

theorem ndsB_head {s : List Nat} (h : ndsB s = true) :
    ∀ b, s.head? = some b → isDigitB b = false := by
  intro b hb
  unfold ndsB at h
  rw [hb] at h
  simpa using h

theorem digitsVal_append_singleton (xs : List Nat) (d : Nat) :
    digitsVal (xs ++ [d]) = digitsVal xs * 10 + (d - 48) := by
  simp [digitsVal, List.foldl_append]

theorem natDecAux_spec : ∀ f n, n < f →
    natDecAux f n ≠ [] ∧ (∀ b ∈ natDecAux f n, 48 ≤ b ∧ b ≤ 57) ∧
      digitsVal (natDecAux f n) = n := by
  intro f
  induction f with
  | zero => intro n hn; omega
  | succ g ih =>
    intro n hn
    by_cases h10 : n < 10
    · refine ⟨by simp [natDecAux, h10], ?_, ?_⟩
      · intro b hb
        simp [natDecAux, h10] at hb
        omega
      · simp [natDecAux, h10, digitsVal]
    · have hrec := ih (n / 10) (by omega)
      obtain ⟨hne, hdig, hval⟩ := hrec
      refine ⟨by simp [natDecAux, h10], ?_, ?_⟩
      · intro b hb
        simp only [natDecAux, if_neg h10, List.mem_append, List.mem_singleton] at hb
        rcases hb with hb | hb
        · exact hdig b hb
        · omega
      · simp only [natDecAux, if_neg h10, digitsVal_append_singleton, hval]
        omega

theorem natDec_spec (n : Nat) :
    natDec n ≠ [] ∧ (∀ b ∈ natDec n, 48 ≤ b ∧ b ≤ 57) ∧ digitsVal (natDec n) = n :=
  natDecAux_spec (n + 1) n (by omega)

theorem intDec_head (i : Int) :
    ∃ b t, intDec i = b :: t ∧ (b = 45 ∨ (48 ≤ b ∧ b ≤ 57)) := by
  have h := natDec_spec i.natAbs
  obtain ⟨hne, hdig, -⟩ := h
  rcases hcase : natDec i.natAbs with - | ⟨b, t⟩
  · exact absurd hcase hne
  · have hb : 48 ≤ b ∧ b ≤ 57 := hdig b (by rw [hcase]; exact List.mem_cons_self b t)
    by_cases hi : i < 0
    · exact ⟨45, natDec i.natAbs, by simp [intDec, hi], Or.inl rfl⟩
    · exact ⟨b, t, by simp [intDec, hi, hcase], Or.inr hb⟩

theorem takeWhile_all_append (p : Nat → Bool) :
    ∀ (xs rest : List Nat), (∀ x ∈ xs, p x = true) →
      (∀ b, rest.head? = some b → p b = false) →
      (xs ++ rest).takeWhile p = xs ∧ (xs ++ rest).dropWhile p = rest := by
  intro xs
  induction xs with
  | nil =>
    intro rest _ hr
    cases rest with
    | nil => simp
    | cons b t =>
      have hb : p b = false := hr b rfl
      simp [List.takeWhile, List.dropWhile, hb]
  | cons x xs ih =>
    intro rest hall hr
    have hx : p x = true := hall x (List.mem_cons_self x xs)
    have := ih rest (fun y hy => hall y (List.mem_cons_of_mem x hy)) hr
    simp [List.takeWhile, List.dropWhile, hx, this.1, this.2]

theorem parseNat_natDec (n : Nat) (rest : List Nat)
    (hr : ∀ b, rest.head? = some b → isDigitB b = false) :
    parseNat (natDec n ++ rest) = some (n, rest) := by
  obtain ⟨hne, hdig, hval⟩ := natDec_spec n
  have h := takeWhile_all_append isDigitB (natDec n) rest
    (fun x hx => by have := hdig x hx; simp [isDigitB]; omega) hr
  simp [parseNat, h.1, h.2, hne, hval]

theorem parseNumber_intDec (i : Int) (rest : List Nat)
    (hr : ∀ b, rest.head? = some b → isDigitB b = false) :
    parseNumber (intDec i ++ rest) = some (.num i, rest) := by
  by_cases hi : i < 0
  · have he : intDec i = 45 :: natDec i.natAbs := by simp [intDec, hi]
    rw [he]
    have habs : (i.natAbs : Int) = -i := Int.ofNat_natAbs_of_nonpos (by omega)
    simp [parseNumber, parseNat_natDec i.natAbs rest hr, habs]
  · have he : intDec i = natDec i.natAbs := by simp [intDec, hi]
    rw [he]
    obtain ⟨hne, hdig, -⟩ := natDec_spec i.natAbs
    have hpn : parseNat (natDec i.natAbs ++ rest) = some (i.natAbs, rest) :=
      parseNat_natDec i.natAbs rest hr
    rcases hcase : natDec i.natAbs with - | ⟨b, t⟩
    · exact absurd hcase hne
    · have hb : 48 ≤ b ∧ b ≤ 57 := hdig b (by rw [hcase]; exact List.mem_cons_self b t)
      rw [hcase] at hpn
      have hne45 : ¬ ((b :: t) ++ rest).head? = some 45 := by
        intro hcontra
        simp at hcontra
        omega
      have habs : (i.natAbs : Int) = i := Int.natAbs_of_nonneg (by omega)
      rw [parseNumber, if_neg hne45, hpn]
      simp [habs]

theorem unescape1_esc (e c : Nat) (r : List Nat) (he : escTable e = some c) :
    unescape1 (e :: r) = some ([c], r) := by
  simp [unescape1, he]

theorem unescape1_u (h1 h2 h3 h4 a b2 c d : Nat) (r : List Nat)
    (e1 : hx h1 = some a) (e2 : hx h2 = some b2) (e3 : hx h3 = some c) (e4 : hx h4 = some d) :
    unescape1 (117 :: h1 :: h2 :: h3 :: h4 :: r) =
      some (utf8Char (a * 4096 + b2 * 256 + c * 16 + d), r) := by
  simp [unescape1, show escTable 117 = none from by decide, e1, e2, e3, e4]

theorem escByte_length_pos (b : Nat) : 1 ≤ (escByte b).length := by
  unfold escByte
  split_ifs <;> simp

theorem escStr_length_ge (s : List Nat) : s.length ≤ (escStr s).length := by
  induction s with
  | nil => simp [escStr]
  | cons b s ih =>
    have h := escByte_length_pos b
    have he : escStr (b :: s) = escByte b ++ escStr s := by simp [escStr]
    rw [he, List.length_append, List.length_cons]
    omega

theorem parseStrF_escStr : ∀ (s : List Nat) (f : Nat) (rest : List Nat), s.length < f →
    parseStrF f (escStr s ++ 34 :: rest) = some (s, rest) := by
  intro s
  induction s with
  | nil =>
    intro f rest hf
    obtain ⟨g, rfl⟩ : ∃ g, f = g + 1 := ⟨f - 1, by omega⟩
    simp [escStr, parseStrF]
  | cons b s ih =>
    intro f rest hf
    obtain ⟨g, rfl⟩ : ∃ g, f = g + 1 := ⟨f - 1, by omega⟩
    have hg : s.length < g := by simp at hf; omega
    have hesc : escStr (b :: s) = escByte b ++ escStr s := by simp [escStr]
    rw [hesc, List.append_assoc]
    unfold escByte
    split_ifs with h34 h92 hctl h8 h9 h10 h12 h13
    · subst h34
      simp only [List.cons_append, List.nil_append]
      rw [parseStrF, if_neg (by decide), if_pos rfl,
        unescape1_esc 34 34 _ (by decide)]
      simp [ih g rest hg]
    · subst h92
      simp only [List.cons_append, List.nil_append]
      rw [parseStrF, if_neg (by decide), if_pos rfl,
        unescape1_esc 92 92 _ (by decide)]
      simp [ih g rest hg]
    · subst h8
      simp only [List.cons_append, List.nil_append]
      rw [parseStrF, if_neg (by decide), if_pos rfl,
        unescape1_esc 98 8 _ (by decide)]
      simp [ih g rest hg]
    · subst h9
      simp only [List.cons_append, List.nil_append]
      rw [parseStrF, if_neg (by decide), if_pos rfl,
        unescape1_esc 116 9 _ (by decide)]
      simp [ih g rest hg]
    · subst h10
      simp only [List.cons_append, List.nil_append]
      rw [parseStrF, if_neg (by decide), if_pos rfl,
        unescape1_esc 110 10 _ (by decide)]
      simp [ih g rest hg]
    · subst h12
      simp only [List.cons_append, List.nil_append]
      rw [parseStrF, if_neg (by decide), if_pos rfl,
        unescape1_esc 102 12 _ (by decide)]
      simp [ih g rest hg]
    · subst h13
      simp only [List.cons_append, List.nil_append]
      rw [parseStrF, if_neg (by decide), if_pos rfl,
        unescape1_esc 114 13 _ (by decide)]
      simp [ih g rest hg]
    · -- u00XX escape for the remaining control bytes
      have hx1 : hx (hexDigit (b / 16)) = some (b / 16) := by
        have hlt : b / 16 < 10 := by omega
        simp [hexDigit, hlt, hx]
        omega
      have hx2 : hx (hexDigit (b % 16)) = some (b % 16) := by
        by_cases hlo : b % 16 < 10
        · simp [hexDigit, hlo, hx]; omega
        · have h16 : b % 16 < 16 := by omega
          have e0 : hexDigit (b % 16) = 87 + b % 16 := by simp [hexDigit, hlo]
          have e1 : (48 ≤ 87 + b % 16 && 87 + b % 16 ≤ 57) = false := by
            simp; omega
          have e2 : (97 ≤ 87 + b % 16 && 87 + b % 16 ≤ 102) = true := by
            simp; omega
          rw [e0, hx, e1, e2]
          simp
      have hchar : utf8Char (0 * 4096 + 0 * 256 + (b / 16) * 16 + b % 16) = [b] := by
        have hval : (0 * 4096 + 0 * 256 + (b / 16) * 16 + b % 16) = b := by omega
        rw [hval]
        simp [utf8Char]
        omega
      simp only [List.cons_append, List.nil_append]
      rw [parseStrF, if_neg (by decide), if_pos rfl,
        unescape1_u 48 48 (hexDigit (b / 16)) (hexDigit (b % 16)) 0 0 (b / 16) (b % 16) _
          (by decide) (by decide) hx1 hx2, hchar]
      simp [ih g rest hg]
    · -- plain byte (not quote, not backslash, not control)
      simp only [List.cons_append, List.nil_append]
      rw [parseStrF, if_neg h34, if_neg h92, if_neg hctl]
      simp [ih g rest hg]

theorem parseStr_escStr (s rest : List Nat) :
    parseStr (escStr s ++ 34 :: rest) = some (s, rest) := by
  have hlen : s.length < (escStr s ++ 34 :: rest).length + 1 := by
    have := escStr_length_ge s
    simp only [List.length_append, List.length_cons]
    omega
  exact parseStrF_escStr s _ rest hlen

/-- First byte of a serialized JSON value: a literal opener, a minus sign or
a decimal digit.  Used to show that whitespace skipping and bracket tests do
not interfere with parsing a serialized value. -/
theorem dumps_head_shape (isep ksep : List Nat) (j : JVal) :
    ∃ b t, dumpsWith isep ksep j = b :: t ∧
      (b = 110 ∨ b = 116 ∨ b = 102 ∨ b = 34 ∨ b = 91 ∨ b = 123 ∨ b = 45 ∨
        (48 ≤ b ∧ b ≤ 57)) := by
  cases j with
  | null =>
    refine ⟨110, [117, 108, 108], ?_, by omega⟩
    have h : dumpsWith isep ksep JVal.null = bs "null" := by simp [dumpsWith]
    rw [h]
    decide
  | jbool b =>
    cases b with
    | true =>
      refine ⟨116, [114, 117, 101], ?_, by omega⟩
      have h : dumpsWith isep ksep (JVal.jbool true) = bs "true" := by simp [dumpsWith]
      rw [h]
      decide
    | false =>
      refine ⟨102, [97, 108, 115, 101], ?_, by omega⟩
      have h : dumpsWith isep ksep (JVal.jbool false) = bs "false" := by simp [dumpsWith]
      rw [h]
      decide
  | num n =>
    obtain ⟨b, t, he, hb⟩ := intDec_head n
    refine ⟨b, t, ?_, by omega⟩
    have h : dumpsWith isep ksep (JVal.num n) = intDec n := by simp [dumpsWith]
    rw [h, he]
  | str s =>
    refine ⟨34, escStr s ++ [34], ?_, by omega⟩
    have h : dumpsWith isep ksep (JVal.str s) = quoteStr s := by simp [dumpsWith]
    rw [h, quoteStr]
    simp
  | arr xs =>
    refine ⟨91, dumpsItems isep ksep xs ++ [93], ?_, by omega⟩
    simp [dumpsWith]
  | obj kvs =>
    refine ⟨123, dumpsEntries isep ksep kvs ++ [125], ?_, by omega⟩
    simp [dumpsWith]

theorem skipWs_cons_of_shape {b : Nat} (t : List Nat)
    (hb : b = 110 ∨ b = 116 ∨ b = 102 ∨ b = 34 ∨ b = 91 ∨ b = 123 ∨ b = 45 ∨
      (48 ≤ b ∧ b ≤ 57)) :
    skipWs (b :: t) = b :: t := by
  have h1 : (b = 32 || b = 9 || b = 10 || b = 13) = false := by
    simp only [Bool.or_eq_false_iff, decide_eq_false_iff_not]
    omega
  simp [skipWs, List.dropWhile, h1]

theorem dumpsWith_ne_nil (isep ksep : List Nat) (j : JVal) :
    dumpsWith isep ksep j ≠ [] := by
  obtain ⟨b, t, he, -⟩ := dumps_head_shape isep ksep j
  rw [he]
  exact List.cons_ne_nil b t

theorem dumpsWith_length_pos (isep ksep : List Nat) (j : JVal) :
    1 ≤ (dumpsWith isep ksep j).length :=
  List.length_pos.mpr (dumpsWith_ne_nil isep ksep j)

/-- Compact serialization of array items, specialised to the wire separators. -/
def dumpsItemsC (xs : JArr) : List Nat := dumpsItems [44] [58] xs

/-- Compact serialization of object entries, specialised to the wire separators. -/
def dumpsEntriesC (kvs : JObj) : List Nat := dumpsEntries [44] [58] kvs

theorem skipWs_cons_notws (b : Nat) (t : List Nat)
    (h : ¬ (b = 32 ∨ b = 9 ∨ b = 10 ∨ b = 13)) :
    skipWs (b :: t) = b :: t := by
  have h1 : (b = 32 || b = 9 || b = 10 || b = 13) = false := by
    simp only [Bool.or_eq_false_iff, decide_eq_false_iff_not]
    omega
  simp [skipWs, List.dropWhile, h1]

theorem dumpsC_arr (xs : JArr) : dumpsC (.arr xs) = 91 :: dumpsItemsC xs ++ [93] := by
  simp [dumpsC, dumpsItemsC, dumpsWith]

theorem dumpsC_obj (kvs : JObj) : dumpsC (.obj kvs) = 123 :: dumpsEntriesC kvs ++ [125] := by
  simp [dumpsC, dumpsEntriesC, dumpsWith]

theorem dumpsItemsC_single (v : JVal) : dumpsItemsC (.cons v .nil) = dumpsC v := by
  simp [dumpsItemsC, dumpsC, dumpsItems]

theorem dumpsItemsC_cons2 (v w : JVal) (t : JArr) :
    dumpsItemsC (.cons v (.cons w t)) = dumpsC v ++ 44 :: dumpsItemsC (.cons w t) := by
  simp [dumpsItemsC, dumpsC, dumpsItems]

theorem dumpsEntriesC_single (k : List Nat) (v : JVal) :
    dumpsEntriesC (.cons k v .nil) = quoteStr k ++ 58 :: dumpsC v := by
  simp [dumpsEntriesC, dumpsC, dumpsEntries]

theorem dumpsEntriesC_cons2 (k : List Nat) (v : JVal) (k2 : List Nat) (v2 : JVal) (t : JObj) :
    dumpsEntriesC (.cons k v (.cons k2 v2 t)) =
      quoteStr k ++ 58 :: dumpsC v ++ 44 :: dumpsEntriesC (.cons k2 v2 t) := by
  simp [dumpsEntriesC, dumpsC, dumpsEntries]

theorem dumpsItemsC_head (v : JVal) (tl : JArr) :
    ∃ X, dumpsItemsC (.cons v tl) = dumpsC v ++ X := by
  cases tl with
  | nil => exact ⟨[], by rw [dumpsItemsC_single]; simp⟩
  | cons w t => exact ⟨44 :: dumpsItemsC (.cons w t), dumpsItemsC_cons2 v w t⟩

/-- Completeness of the parser on compactly serialized values: with enough
fuel, a serialized value followed by a remainder that does not start with a
digit parses back to exactly that value. -/
theorem parse_dumps_mutual : ∀ f : Nat,
    (∀ (j : JVal) (rest : List Nat), (dumpsC j).length ≤ f → ndsB rest = true →
      parseVal f (dumpsC j ++ rest) = some (j, rest)) ∧
    (∀ (xs : JArr) (rest : List Nat), xs ≠ JArr.nil → (dumpsItemsC xs).length + 1 ≤ f →
      parseItems f (dumpsItemsC xs ++ 93 :: rest) = some (xs, rest)) ∧
    (∀ (kvs : JObj) (rest : List Nat), kvs ≠ JObj.nil → (dumpsEntriesC kvs).length + 1 ≤ f →
      parseEntries f (dumpsEntriesC kvs ++ 125 :: rest) = some (kvs, rest)) := by
  intro f
  induction f with
  | zero =>
    refine ⟨?_, ?_, ?_⟩
    · intro j rest hf _
      have h1 := dumpsWith_length_pos [44] [58] j
      have h2 : (dumpsC j).length = (dumpsWith [44] [58] j).length := rfl
      omega
    · intro xs rest _ hf
      omega
    · intro kvs rest _ hf
      omega
  | succ g ih =>
    obtain ⟨ihV, ihA, ihO⟩ := ih
    refine ⟨?_, ?_, ?_⟩
    · -- parseVal on a serialized value
      intro j rest hf hnds
      cases j with
      | null =>
        have e : dumpsC JVal.null = [110, 117, 108, 108] := by decide
        rw [e, parseVal]
        simp only [List.cons_append, List.nil_append]
        rw [skipWs_cons_notws _ _ (by omega)]
        simp
      | jbool b =>
        cases b with
        | true =>
          have e : dumpsC (JVal.jbool true) = [116, 114, 117, 101] := by decide
          rw [e, parseVal]
          simp only [List.cons_append, List.nil_append]
          rw [skipWs_cons_notws _ _ (by omega)]
          simp
        | false =>
          have e : dumpsC (JVal.jbool false) = [102, 97, 108, 115, 101] := by decide
          rw [e, parseVal]
          simp only [List.cons_append, List.nil_append]
          rw [skipWs_cons_notws _ _ (by omega)]
          simp
      | num n =>
        have e : dumpsC (JVal.num n) = intDec n := rfl
        rw [e]
        obtain ⟨b, t, he, hb⟩ := intDec_head n
        rw [he]
        simp only [List.cons_append]
        rw [parseVal, skipWs_cons_notws _ _ (by omega)]
        have h110 : ¬ b = 110 := by omega
        have h116 : ¬ b = 116 := by omega
        have h102 : ¬ b = 102 := by omega
        have h34 : ¬ b = 34 := by omega
        have h91 : ¬ b = 91 := by omega
        have h123 : ¬ b = 123 := by omega
        simp only [if_neg h110, if_neg h116, if_neg h102, if_neg h34, if_neg h91, if_neg h123]
        rw [← List.cons_append, ← he]
        exact parseNumber_intDec n rest (ndsB_head hnds)
      | str s =>
        have e : dumpsC (JVal.str s) ++ rest = 34 :: (escStr s ++ 34 :: rest) := by
          show quoteStr s ++ rest = _
          simp [quoteStr]
        rw [e, parseVal, skipWs_cons_notws _ _ (by omega)]
        simp only [if_neg (by decide : ¬ (34 : Nat) = 110),
          if_neg (by decide : ¬ (34 : Nat) = 116), if_neg (by decide : ¬ (34 : Nat) = 102),
          if_pos rfl]
        rw [parseStr_escStr]
        rfl
      | arr xs =>
        cases xs with
        | nil =>
          have e : dumpsC (JVal.arr .nil) = [91, 93] := by decide
          rw [e, parseVal]
          simp only [List.cons_append, List.nil_append]
          rw [skipWs_cons_notws _ _ (by omega)]
          simp only [if_neg (by decide : ¬ (91 : Nat) = 110),
            if_neg (by decide : ¬ (91 : Nat) = 116), if_neg (by decide : ¬ (91 : Nat) = 102),
            if_neg (by decide : ¬ (91 : Nat) = 34), if_pos rfl]
          rw [skipWs_cons_notws _ _ (by omega)]
          simp
        | cons v tl =>
          have e : dumpsC (JVal.arr (.cons v tl)) ++ rest =
              91 :: (dumpsItemsC (.cons v tl) ++ 93 :: rest) := by
            rw [dumpsC_arr]
            simp
          rw [e, parseVal, skipWs_cons_notws _ _ (by omega)]
          simp only [if_neg (by decide : ¬ (91 : Nat) = 110),
            if_neg (by decide : ¬ (91 : Nat) = 116), if_neg (by decide : ¬ (91 : Nat) = 102),
            if_neg (by decide : ¬ (91 : Nat) = 34), if_pos rfl]
          obtain ⟨X, hX⟩ := dumpsItemsC_head v tl
          obtain ⟨b0, t0, he0, hb0⟩ := dumps_head_shape [44] [58] v
          have hdv : dumpsC v = b0 :: t0 := he0
          have hlen : (dumpsC (JVal.arr (JArr.cons v tl))).length =
              (dumpsItemsC (JArr.cons v tl)).length + 2 := by
            rw [dumpsC_arr]
            simp
          have hfuel : (dumpsItemsC (JArr.cons v tl)).length + 1 ≤ g := by omega
          have hcons : dumpsItemsC (JArr.cons v tl) ++ 93 :: rest =
              b0 :: (t0 ++ X ++ 93 :: rest) := by
            rw [hX, hdv]
            simp
          rw [hcons, skipWs_cons_notws _ _ (by omega)]
          rw [if_neg (show ¬ (b0 :: (t0 ++ X ++ 93 :: rest)).head? = some 93 by simp; omega)]
          rw [← hcons, ihA (.cons v tl) rest (by simp) hfuel]
          rfl
      | obj kvs =>
        cases kvs with
        | nil =>
          have e : dumpsC (JVal.obj .nil) = [123, 125] := by decide
          rw [e, parseVal]
          simp only [List.cons_append, List.nil_append]
          rw [skipWs_cons_notws _ _ (by omega)]
          simp only [if_neg (by decide : ¬ (123 : Nat) = 110),
            if_neg (by decide : ¬ (123 : Nat) = 116), if_neg (by decide : ¬ (123 : Nat) = 102),
            if_neg (by decide : ¬ (123 : Nat) = 34), if_neg (by decide : ¬ (123 : Nat) = 91),
            if_pos rfl]
          rw [skipWs_cons_notws _ _ (by omega)]
          simp
        | cons k v tl =>
          have e : dumpsC (JVal.obj (.cons k v tl)) ++ rest =
              123 :: (dumpsEntriesC (.cons k v tl) ++ 125 :: rest) := by
            rw [dumpsC_obj]
            simp
          rw [e, parseVal, skipWs_cons_notws _ _ (by omega)]
          simp only [if_neg (by decide : ¬ (123 : Nat) = 110),
            if_neg (by decide : ¬ (123 : Nat) = 116), if_neg (by decide : ¬ (123 : Nat) = 102),
            if_neg (by decide : ¬ (123 : Nat) = 34), if_neg (by decide : ¬ (123 : Nat) = 91),
            if_pos rfl]
          have hentries : ∃ X, dumpsEntriesC (.cons k v tl) = 34 :: (escStr k ++ 34 :: X) := by
            cases tl with
            | nil =>
              refine ⟨58 :: dumpsC v, ?_⟩
              rw [dumpsEntriesC_single, quoteStr]
              simp
            | cons k2 v2 t =>
              refine ⟨58 :: (dumpsC v ++ 44 :: dumpsEntriesC (.cons k2 v2 t)), ?_⟩
              rw [dumpsEntriesC_cons2, quoteStr]
              simp
          obtain ⟨X, hX⟩ := hentries
          have hcons : dumpsEntriesC (.cons k v tl) ++ 125 :: rest =
              34 :: (escStr k ++ 34 :: (X ++ 125 :: rest)) := by
            rw [hX]
            simp
          have hlen : (dumpsC (JVal.obj (JObj.cons k v tl))).length =
              (dumpsEntriesC (JObj.cons k v tl)).length + 2 := by
            rw [dumpsC_obj]
            simp
          have hfuel : (dumpsEntriesC (JObj.cons k v tl)).length + 1 ≤ g := by omega
          rw [hcons, skipWs_cons_notws _ _ (by omega)]
          rw [if_neg (show ¬ ((34 : Nat) :: (escStr k ++ 34 :: (X ++ 125 :: rest))).head? =
            some 125 by simp)]
          rw [← hcons, ihO (.cons k v tl) rest (by simp) hfuel]
          rfl
    · -- parseItems on serialized items
      intro xs rest hne hf
      cases xs with
      | nil => exact absurd rfl hne
      | cons v tl =>
        rw [parseItems]
        cases tl with
        | nil =>
          rw [dumpsItemsC_single]
          have hfv : (dumpsC v).length ≤ g := by
            have h1 : (dumpsItemsC (JArr.cons v JArr.nil)).length = (dumpsC v).length := by
              rw [dumpsItemsC_single]
            omega
          rw [ihV v (93 :: rest) hfv (by rfl)]
          simp only [Option.some_bind]
          rw [skipWs_cons_notws _ _ (by omega)]
          rw [if_neg (show ¬ (((93 : Nat) :: rest).head? = some 44) by simp),
            if_pos (show (((93 : Nat) :: rest).head? = some 93) from rfl)]
          rfl
        | cons w t =>
          have hlv := dumpsWith_length_pos [44] [58] v
          have h2 : (dumpsC v).length = (dumpsWith [44] [58] v).length := rfl
          have hlen : (dumpsItemsC (.cons v (.cons w t))).length =
              (dumpsC v).length + 1 + (dumpsItemsC (.cons w t)).length := by
            rw [dumpsItemsC_cons2]
            simp
            omega
          have hfv : (dumpsC v).length ≤ g := by omega
          have hft : (dumpsItemsC (.cons w t)).length + 1 ≤ g := by omega
          have hacc : dumpsItemsC (.cons v (.cons w t)) ++ 93 :: rest =
              dumpsC v ++ (44 :: (dumpsItemsC (.cons w t) ++ 93 :: rest)) := by
            rw [dumpsItemsC_cons2]
            simp
          rw [hacc, ihV v _ hfv (by rfl)]
          simp only [Option.some_bind]
          rw [skipWs_cons_notws _ _ (by omega)]
          rw [if_pos (show ((44 : Nat) :: (dumpsItemsC (.cons w t) ++ 93 :: rest)).head? =
            some 44 from rfl)]
          simp only [List.tail_cons]
          rw [ihA (.cons w t) rest (by simp) hft]
          rfl
    · -- parseEntries on serialized entries
      intro kvs rest hne hf
      cases kvs with
      | nil => exact absurd rfl hne
      | cons k v tl =>
        rw [parseEntries]
        have hqk : (quoteStr k).length = (escStr k).length + 2 := by
          rw [quoteStr]
          simp
        cases tl with
        | nil =>
          have e : dumpsEntriesC (.cons k v .nil) ++ 125 :: rest =
              34 :: (escStr k ++ 34 :: (58 :: (dumpsC v ++ 125 :: rest))) := by
            rw [dumpsEntriesC_single, quoteStr]
            simp
          have hlen : (dumpsEntriesC (JObj.cons k v JObj.nil)).length =
              (quoteStr k).length + 1 + (dumpsC v).length := by
            rw [dumpsEntriesC_single]
            simp
            omega
          have hfv : (dumpsC v).length ≤ g := by omega
          rw [e, skipWs_cons_notws _ _ (by omega),
            if_pos (show ((34 : Nat) :: (escStr k ++ 34 :: (58 :: (dumpsC v ++
              125 :: rest)))).head? = some 34 from rfl)]
          simp only [List.tail_cons]
          rw [parseStr_escStr]
          simp only [Option.some_bind]
          rw [skipWs_cons_notws _ _ (by omega),
            if_pos (show ((58 : Nat) :: (dumpsC v ++ 125 :: rest)).head? = some 58 from rfl)]
          simp only [List.tail_cons]
          rw [ihV v _ hfv (by rfl)]
          simp only [Option.some_bind]
          rw [skipWs_cons_notws _ _ (by omega)]
          rw [if_neg (show ¬ (((125 : Nat) :: rest).head? = some 44) by simp),
            if_pos (show (((125 : Nat) :: rest).head? = some 125) from rfl)]
          rfl
        | cons k2 v2 t =>
          have e : dumpsEntriesC (.cons k v (.cons k2 v2 t)) ++ 125 :: rest =
              34 :: (escStr k ++ 34 :: (58 :: (dumpsC v ++
                44 :: (dumpsEntriesC (.cons k2 v2 t) ++ 125 :: rest)))) := by
            rw [dumpsEntriesC_cons2, quoteStr]
            simp
          have hlen : (dumpsEntriesC (.cons k v (.cons k2 v2 t))).length =
              (quoteStr k).length + 1 + (dumpsC v).length + 1 +
                (dumpsEntriesC (.cons k2 v2 t)).length := by
            rw [dumpsEntriesC_cons2]
            simp [quoteStr]
            omega
          have hlv := dumpsWith_length_pos [44] [58] v
          have h2 : (dumpsC v).length = (dumpsWith [44] [58] v).length := rfl
          have hfv : (dumpsC v).length ≤ g := by omega
          have hft : (dumpsEntriesC (.cons k2 v2 t)).length + 1 ≤ g := by omega
          rw [e, skipWs_cons_notws _ _ (by omega),
            if_pos (show ((34 : Nat) :: (escStr k ++ 34 :: (58 :: (dumpsC v ++
              44 :: (dumpsEntriesC (.cons k2 v2 t) ++ 125 :: rest))))).head? =
              some 34 from rfl)]
          simp only [List.tail_cons]
          rw [parseStr_escStr]
          simp only [Option.some_bind]
          rw [skipWs_cons_notws _ _ (by omega),
            if_pos (show ((58 : Nat) :: (dumpsC v ++
              44 :: (dumpsEntriesC (.cons k2 v2 t) ++ 125 :: rest))).head? = some 58 from rfl)]
          simp only [List.tail_cons]
          rw [ihV v _ hfv (by rfl)]
          simp only [Option.some_bind]
          rw [skipWs_cons_notws _ _ (by omega),
            if_pos (show ((44 : Nat) :: (dumpsEntriesC (.cons k2 v2 t) ++
              125 :: rest)).head? = some 44 from rfl)]
          simp only [List.tail_cons]
          rw [ihO (.cons k2 v2 t) rest (by simp) hft]
          rfl

/-- `json.loads` is a left inverse of compact `json.dumps` in the model. -/
theorem loads_dumpsC (j : JVal) : loads (dumpsC j) = some j := by
  unfold loads
  have h := (parse_dumps_mutual ((dumpsC j).length + 1)).1 j [] (by omega) (by rfl)
  rw [List.append_nil] at h
  rw [h]
  simp [skipWs]


/-! ### Exceptions

`PyErr` models the Python exceptions that can cross the functions embedded
here.  `excClassName` is `type(exc).__name__` and `excStr` is `str(exc)`
(for `KeyError`, `str` of a single string argument is its `repr`, which
wraps it in single quotes; the arguments used by this code contain no quote
or backslash, so plain wrapping is faithful). -/

inductive PyErr where
  | protocolError (msg : List Nat) : PyErr
  | incompleteRead : PyErr
  | jsonDecodeError : PyErr
  | structError : PyErr
  | keyError (msg : List Nat) : PyErr
  | valueError (msg : List Nat) : PyErr
  | connectionError : PyErr
  | runtimeError (msg : List Nat) : PyErr
  | attributeError (msg : List Nat) : PyErr
  | httpError (msg : List Nat) : PyErr
  | typeError (msg : List Nat) : PyErr
deriving DecidableEq

/-- `type(exc).__name__` for each modelled exception. -/
def excClassName : PyErr → List Nat
  | .protocolError _ => bs "ProtocolError"
  | .incompleteRead => bs "IncompleteReadError"
  | .jsonDecodeError => bs "JSONDecodeError"
  | .structError => bs "error"
  | .keyError _ => bs "KeyError"
  | .valueError _ => bs "ValueError"
  | .connectionError => bs "ConnectionError"
  | .runtimeError _ => bs "RuntimeError"
  | .attributeError _ => bs "AttributeError"
  | .httpError _ => bs "HTTPError"
  | .typeError _ => bs "TypeError"

/-- `str(exc)` for each modelled exception. -/
def excStr : PyErr → List Nat
  | .protocolError m => m
  | .incompleteRead => bs ""
  | .jsonDecodeError => bs "Expecting value"
  | .structError => bs "unpack_from requires a buffer"
  | .keyError m => 39 :: m ++ [39]
  | .valueError m => m
  | .connectionError => bs ""
  | .runtimeError m => m
  | .attributeError m => m
  | .httpError m => m
  | .typeError m => m

/-! ### Wire codec (doip_server/protocol.py, doip_shared/constants.py) -/

/-- `doip_shared.constants.DOIP_VERSION`. -/
def DOIP_VERSION : Nat := 2

/-- `doip_shared.constants.MSG_TYPE_REQUEST`. -/
def MSG_TYPE_REQUEST : Nat := 1

/-- `doip_shared.constants.MSG_TYPE_RESPONSE`. -/
def MSG_TYPE_RESPONSE : Nat := 2

/-- `doip_shared.constants.MSG_TYPE_ERROR`. -/
def MSG_TYPE_ERROR : Nat := 127

/-- `doip_shared.constants.OP_HELLO`. -/
def OP_HELLO : Nat := 1

/-- `doip_shared.constants.OP_RETRIEVE`. -/
def OP_RETRIEVE : Nat := 2

/-- `doip_shared.constants.OP_LIST_OPS`. -/
def OP_LIST_OPS : Nat := 4

/-- `doip_shared.constants.OP_INVOKE`. -/
def OP_INVOKE : Nat := 5

/-- `doip_shared.constants.BLOCK_METADATA`. -/
def BLOCK_METADATA : Nat := 1

/-- `doip_shared.constants.BLOCK_COMPONENT`. -/
def BLOCK_COMPONENT : Nat := 2

/-- `doip_shared.constants.BLOCK_WORKFLOW`. -/
def BLOCK_WORKFLOW : Nat := 3

/-- `protocol.ComponentBlock`: a binary component block inside a DOIP
payload.  Field order and defaults follow the Python dataclass; the declared
size is an integer or `None`. -/
structure ComponentBlock where
  component_id : List Nat
  content : List Nat
  media_type : List Nat := bs "application/octet-stream"
  declared_size : Option Int := none
deriving DecidableEq

/-- `protocol.DOIPMessage`: a parsed or to-be-encoded DOIP envelope. -/
structure DOIPMessage where
  version : Nat
  msg_type : Nat
  operation : Nat
  flags : Nat
  object_id : List Nat
  metadata_blocks : List JVal := []
  component_blocks : List ComponentBlock := []
  workflow_blocks : List JVal := []
deriving DecidableEq

/-- `protocol.encode_metadata_block`: JSON body with type prefix and
32-bit length. -/
def encode_metadata_block (data : JVal) : List Nat :=
  let body := dumpsC data
  BLOCK_METADATA :: be32 body.length ++ body

/-- `protocol.encode_workflow_block`. -/
def encode_workflow_block (data : JVal) : List Nat :=
  let body := dumpsC data
  BLOCK_WORKFLOW :: be32 body.length ++ body

/-- `protocol.encode_component_block`: id, media type and content with
16/16/32-bit length prefixes (`block.media_type or ""` only guards `None`,
which the model excludes, so the media type is emitted as is). -/
def encode_component_block (block : ComponentBlock) : List Nat :=
  let body := be16 block.component_id.length ++ block.component_id ++
    be16 block.media_type.length ++ block.media_type ++
    be32 block.content.length ++ block.content
  BLOCK_COMPONENT :: be32 body.length ++ body

/-- Payload of `DOIPMessage.to_bytes`: metadata, component, then workflow
blocks, in list order. -/
def encodePayload (m : DOIPMessage) : List Nat :=
  (m.metadata_blocks.map encode_metadata_block).flatten ++
    (m.component_blocks.map encode_component_block).flatten ++
    (m.workflow_blocks.map encode_workflow_block).flatten

/-- `DOIPMessage.to_bytes`: header (struct `>BBBBHI`), object id bytes,
payload.  `struct.pack` raises on out-of-range values; the model truncates
mod 2^8/2^16/2^32 instead, and the well-formedness predicate `wfMsg` used in
the round-trip theorems keeps every field in range, where the two agree. -/
def DOIPMessage.to_bytes (m : DOIPMessage) : List Nat :=
  let payload := encodePayload m
  let obj_bytes := m.object_id
  [m.version % 256, m.msg_type % 256, m.operation % 256, m.flags % 256] ++
    be16 obj_bytes.length ++ be32 payload.length ++ obj_bytes ++ payload

/-- `protocol._decode_component_block` (the leading underscore is dropped in
the Lean name).  Mirrors the Python exactly: the initial size check raises
`ProtocolError`, the id and media-type slices silently truncate, a
`struct.unpack_from` beyond the buffer raises `struct.error`, and only the
final content-length disagreement raises `ProtocolError`; bytes after the
content are ignored. -/
def decode_component_block (body : List Nat) : Except PyErr ComponentBlock :=
  if body.length < 8 then .error (.protocolError (bs "Component block too small"))
  else
    let comp_id_len := rd16at body 0
    let comp_id := (body.drop 2).take comp_id_len
    if body.length < 2 + comp_id_len + 2 then .error .structError
    else
      let media_len := rd16at body (2 + comp_id_len)
      let media_type := (body.drop (2 + comp_id_len + 2)).take media_len
      if body.length < 2 + comp_id_len + 2 + media_len + 4 then .error .structError
      else
        let content_len := rd32at body (2 + comp_id_len + 2 + media_len)
        let content := (body.drop (2 + comp_id_len + 2 + media_len + 4)).take content_len
        if content.length ≠ content_len then
          .error (.protocolError (bs "Component content length mismatch"))
        else
          .ok { component_id := comp_id, content := content,
                media_type := if media_type = [] then bs "application/octet-stream"
                  else media_type,
                declared_size := some (content_len : Int) }

/-- The block-walking loop of `protocol.read_doip_message`, fueled (the
payload length plus one always suffices, each iteration consumes at least
five bytes).  Metadata, component and workflow blocks are collected into
three lists in order of appearance; `json.loads` failures surface as
`JSONDecodeError`, which is NOT a `ProtocolError`. -/
def parseBlocksF : Nat → List Nat → Except PyErr (List JVal × List ComponentBlock × List JVal)
  | _, [] => .ok ([], [], [])
  | 0, _ :: _ => .error .incompleteRead
  | f + 1, b :: tl =>
    let payload := b :: tl
    if payload.length < 5 then .error (.protocolError (bs "Truncated DOIP block header"))
    else
      let block_len := rd32at payload 1
      let rest := payload.drop 5
      if rest.length < block_len then
        .error (.protocolError (bs "Truncated DOIP block body"))
      else
        let block_body := rest.take block_len
        let remaining := rest.drop block_len
        if b = BLOCK_METADATA then
          match loads block_body with
          | some j => (parseBlocksF f remaining).map (fun r => (j :: r.1, r.2.1, r.2.2))
          | none => .error .jsonDecodeError
        else if b = BLOCK_WORKFLOW then
          match loads block_body with
          | some j => (parseBlocksF f remaining).map (fun r => (r.1, r.2.1, j :: r.2.2))
          | none => .error .jsonDecodeError
        else if b = BLOCK_COMPONENT then
          (decode_component_block block_body).bind fun cb =>
            (parseBlocksF f remaining).map (fun r => (r.1, cb :: r.2.1, r.2.2))
        else .error (.protocolError (bs "Unknown block type " ++ natDec b))

/-- Block walking with enough fuel for the whole payload. -/
def parseBlocks (payload : List Nat) :
    Except PyErr (List JVal × List ComponentBlock × List JVal) :=
  parseBlocksF (payload.length + 1) payload

/-- `reader.readexactly(n)` on a modelled byte stream: the first `n` bytes
and the remainder, or `IncompleteReadError`. -/
def readexactly (n : Nat) (s : List Nat) : Except PyErr (List Nat × List Nat) :=
  if s.length < n then .error .incompleteRead else .ok (s.take n, s.drop n)

/-- `protocol.read_doip_message`: header, version check, object id, payload,
block walk.  Returns the parsed message and the unconsumed stream bytes. -/
def read_doip_message (stream : List Nat) : Except PyErr (DOIPMessage × List Nat) := do
  let h ← readexactly 10 stream
  let header := h.1
  let version := header.getD 0 0
  let msg_type := header.getD 1 0
  let operation := header.getD 2 0
  let flags := header.getD 3 0
  let object_id_len := rd16at header 4
  let payload_len := rd32at header 6
  if version ≠ DOIP_VERSION then
    throw (.protocolError (bs "Unsupported DOIP version " ++ natDec version))
  let o ← readexactly object_id_len h.2
  let p ← readexactly payload_len o.2
  let blocks ← parseBlocks p.1
  return ({ version := version, msg_type := msg_type, operation := operation,
            flags := flags, object_id := o.1, metadata_blocks := blocks.1,
            component_blocks := blocks.2.1, workflow_blocks := blocks.2.2 }, p.2)


/-! ### Well-formed in-memory messages -/

/-- Whether a JSON value is an object (a Python dict). -/
def isObjB : JVal → Bool
  | .obj _ => true
  | _ => false

/-- All keys distinct, as in any Python dict. -/
def keysNodup : List (List Nat) → Bool
  | [] => true
  | k :: t => !t.contains k && keysNodup t

mutual
/-- A JSON value as Python could hold it in memory: byte-string contents and
object keys are real bytes, and each object's keys are distinct. -/
def wfV : JVal → Bool
  | .null => true
  | .jbool _ => true
  | .num _ => true
  | .str s => s.all (· < 256)
  | .arr xs => wfA xs
  | .obj kvs => keysNodup (JObj.keys kvs) && wfO kvs

def wfA : JArr → Bool
  | .nil => true
  | .cons v t => wfV v && wfA t

def wfO : JObj → Bool
  | .nil => true
  | .cons k v t => k.all (· < 256) && wfV v && wfO t
end

/-- A component block as handler code builds it: in-range lengths, non-empty
media type, declared size equal to the content length. -/
def wfComponent (c : ComponentBlock) : Bool :=
  c.component_id.length < 65536 && c.component_id.all (· < 256) &&
  c.media_type ≠ [] && c.media_type.length < 65536 && c.media_type.all (· < 256) &&
  c.content.length < 4294967296 && c.content.all (· < 256) &&
  decide (c.declared_size = some (c.content.length : Int)) &&
  8 + c.component_id.length + c.media_type.length + c.content.length < 4294967296

/-- A metadata or workflow block as handler code builds it: a well-formed
JSON object whose serialization fits a 32-bit length field. -/
def wfJsonBlock (j : JVal) : Bool :=
  isObjB j && wfV j && (dumpsC j).length < 4294967296

/-- A well-formed in-memory `DOIPMessage`: version 0x02 and every field
within the width of its header slot. -/
def wfMsg (m : DOIPMessage) : Bool :=
  m.version = DOIP_VERSION && m.msg_type < 256 && m.operation < 256 && m.flags < 256 &&
  m.object_id.length < 65536 && m.object_id.all (· < 256) &&
  m.metadata_blocks.all wfJsonBlock &&
  m.workflow_blocks.all wfJsonBlock &&
  m.component_blocks.all wfComponent &&
  (encodePayload m).length < 4294967296

/-! ### Decode is a left inverse of encode on well-formed messages -/

theorem getD_drop (l : List Nat) (i j : Nat) : (l.drop i).getD j 0 = l.getD (i + j) 0 := by
  simp [List.getD, List.getElem?_drop]

theorem rd16at_drop (s : List Nat) (i : Nat) : rd16at s i = rd16at (s.drop i) 0 := by
  simp [rd16at, getD_drop]

theorem rd32at_drop (s : List Nat) (i : Nat) : rd32at s i = rd32at (s.drop i) 0 := by
  simp [rd32at, getD_drop]

theorem rd16at_be16 (n : Nat) (rest : List Nat) (h : n < 65536) :
    rd16at (be16 n ++ rest) 0 = n := by
  simp [be16, rd16at, List.getD]
  have := rd16_be16 n h
  simpa [rd16] using this

theorem rd32at_be32 (n : Nat) (rest : List Nat) (h : n < 4294967296) :
    rd32at (be32 n ++ rest) 0 = n := by
  simp [be32, rd32at, List.getD]
  have := rd32_be32 n h
  simpa [rd32] using this

theorem decode_encode_component (c : ComponentBlock) (h : wfComponent c = true) :
    decode_component_block (be16 c.component_id.length ++ c.component_id ++
      be16 c.media_type.length ++ c.media_type ++
      be32 c.content.length ++ c.content) = .ok c := by
  obtain ⟨cid, cont, mt, ds⟩ := c
  simp only [wfComponent, Bool.and_eq_true, decide_eq_true_eq, ne_eq] at h
  obtain ⟨⟨⟨⟨⟨⟨⟨⟨hidl, -⟩, hmne⟩, hml⟩, -⟩, hcl⟩, -⟩, hds⟩, -⟩ := h
  simp only at hidl hmne hml hcl hds ⊢
  have hgrp : be16 cid.length ++ cid ++ be16 mt.length ++ mt ++ be32 cont.length ++ cont =
      (be16 cid.length ++ cid) ++ ((be16 mt.length ++ mt) ++ (be32 cont.length ++ cont)) := by
    simp [List.append_assoc]
  rw [hgrp]
  have e1 : ((be16 cid.length ++ cid) ++ ((be16 mt.length ++ mt) ++
      (be32 cont.length ++ cont))).length = 8 + cid.length + mt.length + cont.length := by
    simp [be16, be32]
    omega
  have hA : rd16at ((be16 cid.length ++ cid) ++ ((be16 mt.length ++ mt) ++
      (be32 cont.length ++ cont))) 0 = cid.length := by
    rw [List.append_assoc]
    exact rd16at_be16 _ _ hidl
  have hB : (((be16 cid.length ++ cid) ++ ((be16 mt.length ++ mt) ++
      (be32 cont.length ++ cont)))).drop 2 = cid ++ ((be16 mt.length ++ mt) ++
      (be32 cont.length ++ cont)) := by
    rw [List.append_assoc]
    exact List.drop_left' (by simp [be16] <;> omega)
  have hC : (cid ++ ((be16 mt.length ++ mt) ++ (be32 cont.length ++ cont))).take cid.length =
      cid := List.take_left' rfl
  have hD : (((be16 cid.length ++ cid) ++ ((be16 mt.length ++ mt) ++
      (be32 cont.length ++ cont)))).drop (2 + cid.length) =
      (be16 mt.length ++ mt) ++ (be32 cont.length ++ cont) :=
    List.drop_left' (by simp [be16] <;> omega)
  have hE : rd16at ((be16 cid.length ++ cid) ++ ((be16 mt.length ++ mt) ++
      (be32 cont.length ++ cont))) (2 + cid.length) = mt.length := by
    rw [rd16at_drop, hD, List.append_assoc]
    exact rd16at_be16 _ _ hml
  have hF : (((be16 cid.length ++ cid) ++ ((be16 mt.length ++ mt) ++
      (be32 cont.length ++ cont)))).drop (2 + cid.length + 2) =
      mt ++ (be32 cont.length ++ cont) := by
    have hdd : (((be16 cid.length ++ cid) ++ ((be16 mt.length ++ mt) ++
        (be32 cont.length ++ cont)))).drop (2 + cid.length + 2) =
        ((((be16 cid.length ++ cid) ++ ((be16 mt.length ++ mt) ++
        (be32 cont.length ++ cont)))).drop (2 + cid.length)).drop 2 := by
      rw [List.drop_drop]
      try congr 1
      try omega
    rw [hdd, hD, List.append_assoc]
    exact List.drop_left' (by simp [be16] <;> omega)
  have hG : (mt ++ (be32 cont.length ++ cont)).take mt.length = mt := List.take_left' rfl
  have hH : (((be16 cid.length ++ cid) ++ ((be16 mt.length ++ mt) ++
      (be32 cont.length ++ cont)))).drop (2 + cid.length + 2 + mt.length) =
      be32 cont.length ++ cont := by
    have hdd : (((be16 cid.length ++ cid) ++ ((be16 mt.length ++ mt) ++
        (be32 cont.length ++ cont)))).drop (2 + cid.length + 2 + mt.length) =
        ((((be16 cid.length ++ cid) ++ ((be16 mt.length ++ mt) ++
        (be32 cont.length ++ cont)))).drop (2 + cid.length)).drop (2 + mt.length) := by
      rw [List.drop_drop]
      try congr 1
      try omega
    rw [hdd, hD]
    exact List.drop_left' (by simp [be16] <;> omega)
  have hI : rd32at ((be16 cid.length ++ cid) ++ ((be16 mt.length ++ mt) ++
      (be32 cont.length ++ cont))) (2 + cid.length + 2 + mt.length) = cont.length := by
    rw [rd32at_drop, hH]
    exact rd32at_be32 _ _ hcl
  have hJ : (((be16 cid.length ++ cid) ++ ((be16 mt.length ++ mt) ++
      (be32 cont.length ++ cont)))).drop (2 + cid.length + 2 + mt.length + 4) = cont := by
    have hdd : (((be16 cid.length ++ cid) ++ ((be16 mt.length ++ mt) ++
        (be32 cont.length ++ cont)))).drop (2 + cid.length + 2 + mt.length + 4) =
        ((((be16 cid.length ++ cid) ++ ((be16 mt.length ++ mt) ++
        (be32 cont.length ++ cont)))).drop (2 + cid.length + 2 + mt.length)).drop 4 := by
      rw [List.drop_drop]
      try congr 1
      try omega
    rw [hdd, hH]
    exact List.drop_left' (by simp [be32] <;> omega)
  unfold decode_component_block
  rw [if_neg (by rw [e1]; omega)]
  simp only [hA, hB, hC, hD, hE, hF, hG, hH, hI, hJ]
  rw [if_neg (by rw [e1]; omega), if_neg (by rw [e1]; omega)]
  rw [List.take_length]
  rw [if_neg (by omega)]
  simp [hmne, hds]

theorem parseBlocksF_cons (f : Nat) (t : Nat) (body rest : List Nat)
    (hlen : body.length < 4294967296) :
    parseBlocksF (f + 1) ((t :: be32 body.length ++ body) ++ rest) =
      (if t = BLOCK_METADATA then
        match loads body with
        | some j => (parseBlocksF f rest).map (fun r => (j :: r.1, r.2.1, r.2.2))
        | none => .error .jsonDecodeError
      else if t = BLOCK_WORKFLOW then
        match loads body with
        | some j => (parseBlocksF f rest).map (fun r => (r.1, r.2.1, j :: r.2.2))
        | none => .error .jsonDecodeError
      else if t = BLOCK_COMPONENT then
        (decode_component_block body).bind fun cb =>
          (parseBlocksF f rest).map (fun r => (r.1, cb :: r.2.1, r.2.2))
      else .error (.protocolError (bs "Unknown block type " ++ natDec t))) := by
  have e : (t :: be32 body.length ++ body) ++ rest =
      t :: (be32 body.length ++ (body ++ rest)) := by simp
  rw [e, parseBlocksF]
  have hplen : (t :: (be32 body.length ++ (body ++ rest))).length =
      5 + body.length + rest.length := by
    simp [be32]
    omega
  rw [if_neg (by rw [hplen]; omega)]
  have h1 : rd32at (t :: (be32 body.length ++ (body ++ rest))) 1 = body.length := by
    rw [rd32at_drop]
    simp only [List.drop_succ_cons, List.drop_zero]
    exact rd32at_be32 _ _ hlen
  have h2 : (t :: (be32 body.length ++ (body ++ rest))).drop 5 = body ++ rest := by
    simp only [List.drop_succ_cons]
    exact List.drop_left' (by simp [be32])
  simp only [h1, h2]
  rw [if_neg (by simp)]
  have h3 : (body ++ rest).take body.length = body := List.take_left' rfl
  have h4 : (body ++ rest).drop body.length = rest := List.drop_left' rfl
  simp only [h3, h4]

theorem parseBlocksF_meta (f : Nat) (j : JVal) (rest : List Nat)
    (hlen : (dumpsC j).length < 4294967296) :
    parseBlocksF (f + 1) (encode_metadata_block j ++ rest) =
      (parseBlocksF f rest).map (fun r => (j :: r.1, r.2.1, r.2.2)) := by
  have e : encode_metadata_block j =
      BLOCK_METADATA :: be32 (dumpsC j).length ++ dumpsC j := rfl
  rw [e, parseBlocksF_cons f BLOCK_METADATA (dumpsC j) rest hlen]
  rw [if_pos rfl, loads_dumpsC]

theorem parseBlocksF_workflow (f : Nat) (j : JVal) (rest : List Nat)
    (hlen : (dumpsC j).length < 4294967296) :
    parseBlocksF (f + 1) (encode_workflow_block j ++ rest) =
      (parseBlocksF f rest).map (fun r => (r.1, r.2.1, j :: r.2.2)) := by
  have e : encode_workflow_block j =
      BLOCK_WORKFLOW :: be32 (dumpsC j).length ++ dumpsC j := rfl
  rw [e, parseBlocksF_cons f BLOCK_WORKFLOW (dumpsC j) rest hlen]
  rw [if_neg (by decide), if_pos rfl, loads_dumpsC]

theorem parseBlocksF_comp (f : Nat) (c : ComponentBlock) (rest : List Nat)
    (hwf : wfComponent c = true) :
    parseBlocksF (f + 1) (encode_component_block c ++ rest) =
      (parseBlocksF f rest).map (fun r => (r.1, c :: r.2.1, r.2.2)) := by
  have hlen : (be16 c.component_id.length ++ c.component_id ++
      be16 c.media_type.length ++ c.media_type ++
      be32 c.content.length ++ c.content).length < 4294967296 := by
    simp only [wfComponent, Bool.and_eq_true, decide_eq_true_eq, ne_eq] at hwf
    simp [be16, be32]
    omega
  have e : encode_component_block c =
      BLOCK_COMPONENT :: be32 (be16 c.component_id.length ++ c.component_id ++
        be16 c.media_type.length ++ c.media_type ++
        be32 c.content.length ++ c.content).length ++
        (be16 c.component_id.length ++ c.component_id ++
        be16 c.media_type.length ++ c.media_type ++
        be32 c.content.length ++ c.content) := rfl
  rw [e, parseBlocksF_cons f BLOCK_COMPONENT _ rest hlen]
  rw [if_neg (by decide), if_neg (by decide), if_pos rfl, decode_encode_component c hwf]
  rfl

theorem parseBlocksF_nil (f : Nat) : parseBlocksF f [] = .ok ([], [], []) := by
  cases f <;> rfl

theorem encode_workflow_length_pos (j : JVal) : 5 ≤ (encode_workflow_block j).length := by
  simp [encode_workflow_block, be32]

theorem encode_metadata_length_pos (j : JVal) : 5 ≤ (encode_metadata_block j).length := by
  simp [encode_metadata_block, be32]

theorem encode_component_length_pos (c : ComponentBlock) :
    5 ≤ (encode_component_block c).length := by
  simp [encode_component_block, be32]

theorem parseBlocksF_workflows : ∀ (ws : List JVal) (f : Nat),
    ws.all wfJsonBlock = true → ((ws.map encode_workflow_block).flatten).length < f →
    parseBlocksF f (ws.map encode_workflow_block).flatten = .ok ([], [], ws) := by
  intro ws
  induction ws with
  | nil => intro f _ _; simp [parseBlocksF_nil]
  | cons w ws ih =>
    intro f hwf hf
    simp only [List.all_cons, Bool.and_eq_true] at hwf
    have hlen32 : (dumpsC w).length < 4294967296 := by
      have := hwf.1
      simp only [wfJsonBlock, Bool.and_eq_true, decide_eq_true_eq] at this
      exact this.2
    have hsp : ((w :: ws).map encode_workflow_block).flatten =
        encode_workflow_block w ++ (ws.map encode_workflow_block).flatten := by
      simp
    rw [hsp] at hf ⊢
    have h5 := encode_workflow_length_pos w
    obtain ⟨g, rfl⟩ : ∃ g, f = g + 1 := ⟨f - 1, by simp at hf; omega⟩
    rw [parseBlocksF_workflow g w _ hlen32]
    rw [ih g hwf.2 (by simp at hf ⊢; omega)]
    rfl

theorem parseBlocksF_components : ∀ (cs : List ComponentBlock) (ws : List JVal) (f : Nat),
    cs.all wfComponent = true → ws.all wfJsonBlock = true →
    ((cs.map encode_component_block).flatten ++
      (ws.map encode_workflow_block).flatten).length < f →
    parseBlocksF f ((cs.map encode_component_block).flatten ++
      (ws.map encode_workflow_block).flatten) = .ok ([], cs, ws) := by
  intro cs
  induction cs with
  | nil =>
    intro ws f _ hws hf
    simp only [List.map_nil, List.flatten_nil, List.nil_append] at hf ⊢
    exact parseBlocksF_workflows ws f hws hf
  | cons c cs ih =>
    intro ws f hwf hws hf
    simp only [List.all_cons, Bool.and_eq_true] at hwf
    have hsp : ((c :: cs).map encode_component_block).flatten ++
        (ws.map encode_workflow_block).flatten =
        encode_component_block c ++ ((cs.map encode_component_block).flatten ++
          (ws.map encode_workflow_block).flatten) := by
      simp
    rw [hsp] at hf ⊢
    have h5 := encode_component_length_pos c
    obtain ⟨g, rfl⟩ : ∃ g, f = g + 1 := ⟨f - 1, by simp at hf; omega⟩
    rw [parseBlocksF_comp g c _ hwf.1]
    rw [ih ws g hwf.2 hws (by simp at hf ⊢; omega)]
    rfl

theorem parseBlocksF_payload : ∀ (ms : List JVal) (cs : List ComponentBlock) (ws : List JVal)
    (f : Nat), ms.all wfJsonBlock = true → cs.all wfComponent = true →
    ws.all wfJsonBlock = true →
    ((ms.map encode_metadata_block).flatten ++ (cs.map encode_component_block).flatten ++
      (ws.map encode_workflow_block).flatten).length < f →
    parseBlocksF f ((ms.map encode_metadata_block).flatten ++
      (cs.map encode_component_block).flatten ++
      (ws.map encode_workflow_block).flatten) = .ok (ms, cs, ws) := by
  intro ms
  induction ms with
  | nil =>
    intro cs ws f _ hcs hws hf
    simp only [List.map_nil, List.flatten_nil, List.nil_append] at hf ⊢
    exact parseBlocksF_components cs ws f hcs hws (by
      simpa using hf)
  | cons j ms ih =>
    intro cs ws f hms hcs hws hf
    simp only [List.all_cons, Bool.and_eq_true] at hms
    have hlen32 : (dumpsC j).length < 4294967296 := by
      have := hms.1
      simp only [wfJsonBlock, Bool.and_eq_true, decide_eq_true_eq] at this
      exact this.2
    have hsp : ((j :: ms).map encode_metadata_block).flatten ++
        (cs.map encode_component_block).flatten ++
        (ws.map encode_workflow_block).flatten =
        encode_metadata_block j ++ ((ms.map encode_metadata_block).flatten ++
          (cs.map encode_component_block).flatten ++
          (ws.map encode_workflow_block).flatten) := by
      simp
    rw [hsp] at hf ⊢
    have h5 := encode_metadata_length_pos j
    obtain ⟨g, rfl⟩ : ∃ g, f = g + 1 := ⟨f - 1, by simp at hf; omega⟩
    rw [parseBlocksF_meta g j _ hlen32]
    rw [ih cs ws g hms.2 hcs hws (by simp at hf ⊢; omega)]
    rfl

/-- Reading a stream that starts with a syntactically valid header: the
header fields come back verbatim and the block walk runs on the payload. -/
theorem read_doip_message_structured (b c d : Nat) (oid P : List Nat)
    (hol : oid.length < 65536) (hpl : P.length < 4294967296) :
    read_doip_message (([DOIP_VERSION, b, c, d] ++ be16 oid.length ++ be32 P.length) ++
      (oid ++ P)) =
      (parseBlocks P).map (fun blocks =>
        ({ version := DOIP_VERSION, msg_type := b, operation := c, flags := d,
           object_id := oid, metadata_blocks := blocks.1,
           component_blocks := blocks.2.1, workflow_blocks := blocks.2.2 }, [])) := by
  have hhlen : ([DOIP_VERSION, b, c, d] ++ be16 oid.length ++ be32 P.length).length = 10 := by
    simp [be16, be32]
  unfold read_doip_message
  rw [readexactly, if_neg (by simp [be16, be32])]
  rw [List.take_left' hhlen, List.drop_left' hhlen]
  simp only [Bind.bind, Except.bind]
  have hgd0 : ([DOIP_VERSION, b, c, d] ++ be16 oid.length ++ be32 P.length).getD 0 0 =
      DOIP_VERSION := by simp [be16, be32]
  have hgd1 : ([DOIP_VERSION, b, c, d] ++ be16 oid.length ++ be32 P.length).getD 1 0 = b := by
    simp [be16, be32]
  have hgd2 : ([DOIP_VERSION, b, c, d] ++ be16 oid.length ++ be32 P.length).getD 2 0 = c := by
    simp [be16, be32]
  have hgd3 : ([DOIP_VERSION, b, c, d] ++ be16 oid.length ++ be32 P.length).getD 3 0 = d := by
    simp [be16, be32]
  have h16 : rd16at ([DOIP_VERSION, b, c, d] ++ be16 oid.length ++ be32 P.length) 4 =
      oid.length := by
    simp [rd16at, rd16, be16, be32]
    omega
  have h32 : rd32at ([DOIP_VERSION, b, c, d] ++ be16 oid.length ++ be32 P.length) 6 =
      P.length := by
    simp [rd32at, rd32, be16, be32]
    omega
  rw [hgd0, hgd1, hgd2, hgd3, h16, h32]
  rw [if_neg (by simp)]
  have hro : readexactly oid.length (oid ++ P) = .ok (oid, P) := by
    rw [readexactly, if_neg (by simp)]
    rw [List.take_left' rfl, List.drop_left' rfl]
  have hrp : readexactly P.length P = .ok (P, []) := by
    rw [readexactly, if_neg (by omega)]
    rw [List.take_length, List.drop_length]
  simp only [pure, Except.pure, hro, hrp]
  cases hpb : parseBlocks P <;> simp [Except.map, pure, Except.pure]

/-- Round trip of the codec: `read_doip_message` applied to
`DOIPMessage.to_bytes` of a well-formed message returns the message
bit-exactly and consumes the whole stream. -/
theorem read_doip_message_to_bytes (m : DOIPMessage) (h : wfMsg m = true) :
    read_doip_message m.to_bytes = .ok (m, []) := by
  obtain ⟨v, mt, op, fl, oid, ms, cs, ws⟩ := m
  simp only [wfMsg, Bool.and_eq_true, decide_eq_true_eq] at h
  obtain ⟨⟨⟨⟨⟨⟨⟨⟨⟨hv, hmt⟩, hop⟩, hfl⟩, hol⟩, -⟩, hms⟩, hws⟩, hcs⟩, hpl⟩ := h
  have hv2 : v = DOIP_VERSION := hv
  subst hv2
  have hmt' : mt % 256 = mt := Nat.mod_eq_of_lt hmt
  have hop' : op % 256 = op := Nat.mod_eq_of_lt hop
  have hfl' : fl % 256 = fl := Nat.mod_eq_of_lt hfl
  obtain ⟨P, hP⟩ : ∃ P, encodePayload ⟨DOIP_VERSION, mt, op, fl, oid, ms, cs, ws⟩ = P :=
    ⟨_, rfl⟩
  rw [hP] at hpl
  have hsplit : DOIPMessage.to_bytes ⟨DOIP_VERSION, mt, op, fl, oid, ms, cs, ws⟩ =
      ([DOIP_VERSION, mt, op, fl] ++ be16 oid.length ++ be32 P.length) ++ (oid ++ P) := by
    have hdv : DOIP_VERSION % 256 = DOIP_VERSION := by decide
    simp [DOIPMessage.to_bytes, hP, hdv, hmt', hop', hfl']
  rw [hsplit, read_doip_message_structured mt op fl oid P hol hpl]
  have hpb : parseBlocks P = .ok (ms, cs, ws) := by
    rw [← hP]
    simp only [encodePayload, parseBlocks]
    exact parseBlocksF_payload ms cs ws _ hms hcs hws (by omega)
  rw [hpb]
  rfl


/-! ### Sharding (doip_shared/sharding.py) -/

/-- `doip_shared.sharding.shard_qid`: uppercase, require a leading `Q`,
require all-digits after it, zero-pad to six digits, and emit the
`pp/qq/rr/QID` layout. -/
def shard_qid (qid : List Nat) : Except PyErr (List Nat) :=
  let normalized := pyUpperB qid
  if normalized.take 1 ≠ [81] then
    .error (.valueError (bs "QID must start with " ++ [39, 81, 39]))
  else
    let digits := normalized.drop 1
    if digits = [] || ¬ digits.all isDigitB then
      .error (.valueError (bs "QID must contain digits after " ++ [39, 81, 39]))
    else
      let padded := List.replicate (6 - digits.length) 48 ++ digits
      .ok (padded.take 2 ++ [47] ++ (padded.drop 2).take 2 ++ [47] ++
        (padded.drop 4).take 2 ++ [47] ++ normalized)

/-- `doip_shared.sharding.get_component_path`; the component id is rendered
through the f-string (Python `str`). -/
def get_component_path (qid : List Nat) (component_id : JVal) (extension : List Nat) :
    Except PyErr (List Nat) := do
  let ext := extension.dropWhile (fun b => b = 46)
  let pre ← shard_qid qid
  if ext ≠ [] then
    .ok (pre ++ bs "/components/" ++ jToPyStr component_id ++ [46] ++ ext)
  else
    .ok (pre ++ bs "/components/" ++ jToPyStr component_id)

/-! ### Storage backend (doip_server/storage_lakefs.py) -/

/-- `storage_lakefs._extract_qid`: uppercase, require a leading `Q`, and
take the maximal run of decimal digits after it as the base identifier. -/
def extract_qid (object_id : List Nat) : Except PyErr (List Nat) :=
  let obj := pyUpperB object_id
  if obj.take 1 ≠ [81] then
    .error (.valueError (bs "invalid identifier: must start with Q"))
  else
    let qid := obj.take (1 + ((obj.drop 1).takeWhile isDigitB).length)
    if qid.length = 1 then
      .error (.valueError (bs "invalid identifier: no digits after Q"))
    else .ok qid

/-- `storage_lakefs._TYPE_SUFFIX_MAP`. -/
def TYPE_SUFFIX_MAP : List (List Nat × List Nat) :=
  [(bs "application/pdf", bs ".pdf"), (bs "image/png", bs ".png"),
   (bs "image/jpeg", bs ".jpg"), (bs "image/svg+xml", bs ".svg"),
   (bs "application/json", bs ".json")]

/-- First-match association lookup (Python dict lookup over the literal
suffix map, whose keys are distinct). -/
def assocLookup : List (List Nat × List Nat) → List Nat → Option (List Nat)
  | [], _ => none
  | (k, v) :: t, key => if k = key then some v else assocLookup t key

/-- The media-type arm of `_extension_from_media_type`: only a truthy
string can be a key of the string-keyed suffix map. -/
def mediaSuffix (media_type : Option JVal) : List Nat :=
  match media_type with
  | some (.str m) =>
    if m ≠ [] then
      match assocLookup TYPE_SUFFIX_MAP m with
      | some suf => suf
      | none => bs ".bin"
    else bs ".bin"
  | _ => bs ".bin"

/-- `storage_lakefs._extension_from_media_type`: an explicit extension wins
(gaining a leading dot if it lacks one), else the media-type map, else
`.bin`. -/
def extension_from_media_type (media_type : Option JVal)
    (explicit_extension : Option (List Nat)) : List Nat :=
  match explicit_extension with
  | some e =>
    if e ≠ [] then (if e.take 1 = [46] then e else 46 :: e)
    else mediaSuffix media_type
  | none => mediaSuffix media_type

/-- External collaborators of the server, abstracted as oracles: the FDO
facade HTTP endpoint used by `ObjectRegistry._fetch_manifest` (keyed by the
upper-cased PID; an error models `httpx` failures), the lakeFS health check
`ensure_lakefs_available`, the S3 `get_object` call keyed by the object key
(`none` models a missing object or any boto error), the configured
`lakefs.branch`, the equation-extraction workflow of
`workflows.run_equation_extraction_workflow`, and the RO-Crate assembly of
`handlers._build_rocrate_payload` (network and zip-building work outside
this model). -/
structure Env where
  fdoManifest : List Nat → Except PyErr JVal := fun _ => .error (.httpError [])
  lakefsAvailable : Bool := false
  blobGet : List Nat → Option (List Nat) := fun _ => none
  branchCfg : Option (List Nat) := none
  workflowRun : List Nat → JVal → Except PyErr JVal := fun _ _ => .error (.runtimeError [])
  rocrateBuild : List Nat → Except PyErr (List Nat) := fun _ => .ok []

/-- `storage_lakefs._branch`: the configured branch name or `"main"`
(`lakefs_cfg.get("branch") or "main"`). -/
def branchName (env : Env) : List Nat :=
  match env.branchCfg with
  | some b => if b = [] then bs "main" else b
  | none => bs "main"

/-- `storage_lakefs.build_object_key` with its default branch argument. -/
def build_object_key (env : Env) (qid : List Nat) (component_id : JVal)
    (extension : List Nat) : Except PyErr (List Nat) := do
  let ext := extension.dropWhile (fun b => b = 46)
  let path ← get_component_path qid component_id ext
  .ok (branchName env ++ [47] ++ path)

/-- `storage_lakefs.get_component_bytes`: resolve the sharded key and fetch
from S3; any storage failure surfaces as `KeyError` naming the key. -/
def get_component_bytes (env : Env) (object_id : List Nat) (component_id : JVal)
    (media_type : Option JVal) (extension : Option (List Nat)) : Except PyErr (List Nat) := do
  let qid ← extract_qid object_id
  let ext := extension_from_media_type media_type extension
  let key ← build_object_key env qid component_id ext
  match env.blobGet key with
  | some body => .ok body
  | none => .error (.keyError (bs "S3 object not found: " ++ key))

/-! ### Object registry (doip_server/object_registry.py) -/

/-- Python type names, used to render `AttributeError` texts. -/
def pyTypeName : JVal → List Nat
  | .null => bs "NoneType"
  | .jbool _ => bs "bool"
  | .num _ => bs "int"
  | .str _ => bs "str"
  | .arr _ => bs "list"
  | .obj _ => bs "dict"

/-- Python `value.get(key)`: a dictionary lookup, raising `AttributeError`
on any non-dict value. -/
def dictGet (v : JVal) (key : List Nat) : Except PyErr (Option JVal) :=
  match v with
  | .obj kvs => .ok (kvs.get key)
  | _ => .error (.attributeError ([39] ++ pyTypeName v ++ [39] ++
      bs " object has no attribute " ++ [39] ++ bs "get" ++ [39]))

/-- `.get(key)` on values the code has already isinstance-checked to be
dicts (returns `None` on non-dicts, a case those callers never reach). -/
def jGet (v : JVal) (key : List Nat) : Option JVal :=
  match v with
  | .obj kvs => kvs.get key
  | _ => none

/-- The UTF-8 bytes of a JSON string value (`.encode("utf-8")` where the
code puts component ids and media types into blocks); non-strings have no
byte form and collapse to the empty string here — the Python code would
fail later when serializing such a block, a path no claim exercises. -/
def jBytes : JVal → List Nat
  | .str s => s
  | _ => []

/-- Scan of `kernel["fdo:hasComponent"]` (`_find_component`'s loop): the
first dict entry whose `componentId` equals the requested id. -/
def findComponentIn (component_id : JVal) : JArr → Option JVal
  | .nil => none
  | .cons c t =>
    match c with
    | .obj kvs =>
      if kvs.get (bs "componentId") = some component_id then some (.obj kvs)
      else findComponentIn component_id t
    | _ => findComponentIn component_id t

/-- `object_registry._find_component`. -/
def find_component (component_id : JVal) (manifest : JVal) : Option JVal :=
  let kernel :=
    match manifest with
    | .obj kvs => kvs.get (bs "kernel")
    | _ => none
  let components :=
    match kernel with
    | some (.obj kkvs) => kkvs.get (bs "fdo:hasComponent")
    | _ => none
  match components with
  | some (.arr xs) => findComponentIn component_id xs
  | _ => none

/-- `object_registry._component_media_type`:
`component.get("mediaType") or component.get("mimeType") or
"application/octet-stream"`. -/
def component_media_type (component : JVal) : JVal :=
  match pyOrO (pyOrO (jGet component (bs "mediaType")) (jGet component (bs "mimeType")))
      (some (.str (bs "application/octet-stream"))) with
  | some v => v
  | none => .null

/-- `object_registry._component_extension`: the suffix after the last dot
of a string `location`, else a media-type specific default.  A non-string
media type takes the final `None` branch (Python would raise on
`.startswith` there; the callers always pass the string produced by
`_component_media_type`). -/
def component_extension (component : JVal) (media_type : JVal) : Option (List Nat) :=
  let fallback : Option (List Nat) :=
    match media_type with
    | .str m =>
      if m.take 15 = bs "application/pdf" then some (bs "pdf")
      else if m = bs "application/json" then some (bs "json")
      else none
    | _ => none
  match jGet component (bs "location") with
  | some (.str loc) =>
    if loc.contains 46 then some ((loc.reverse.takeWhile (fun b => b ≠ 46)).reverse)
    else fallback
  | _ => fallback

/-- `ObjectRegistry.fetch_fdo_object`: upper-case the PID and consult the
FDO facade (the manifest cache only affects repeated lookups and is not
modelled). -/
def fetch_fdo_object (env : Env) (pid : List Nat) : Except PyErr JVal :=
  env.fdoManifest (pyUpperB pid)

/-- `ObjectRegistry.get_component`: manifest lookup, media-type and
extension resolution, the availability check, then the storage fetch with
its error mapping (`KeyError` → component-not-found, anything else →
`RuntimeError("storage-backend error")`). -/
def get_component (env : Env) (object_id : List Nat) (component_id : JVal) :
    Except PyErr (List Nat × JVal) := do
  let manifest ← fetch_fdo_object env object_id
  match find_component component_id manifest with
  | none => .error (.keyError (bs "component-not-found:" ++ jToPyStr component_id))
  | some component =>
    let media_type := component_media_type component
    let extension := component_extension component media_type
    if env.lakefsAvailable = false then .error .connectionError
    else
      match get_component_bytes env object_id component_id (some media_type) extension with
      | .ok content => .ok (content, media_type)
      | .error (.keyError _) =>
        .error (.keyError (bs "component-not-found:" ++ jToPyStr component_id))
      | .error _ => .error (.runtimeError (bs "storage-backend error"))

/-! ### Handlers (doip_server/handlers.py) -/

/-- The integer constants the `doip_server.protocol` module defines or
re-exports from `doip_shared.constants`; there is no `OP_DESCRIBE` anywhere
in the repository. -/
def protocolAttr (name : List Nat) : Option Nat :=
  if name = bs "DOIP_VERSION" then some DOIP_VERSION
  else if name = bs "MSG_TYPE_REQUEST" then some MSG_TYPE_REQUEST
  else if name = bs "MSG_TYPE_RESPONSE" then some MSG_TYPE_RESPONSE
  else if name = bs "MSG_TYPE_ERROR" then some MSG_TYPE_ERROR
  else if name = bs "OP_HELLO" then some OP_HELLO
  else if name = bs "OP_RETRIEVE" then some OP_RETRIEVE
  else if name = bs "OP_LIST_OPS" then some OP_LIST_OPS
  else if name = bs "OP_INVOKE" then some OP_INVOKE
  else if name = bs "BLOCK_METADATA" then some BLOCK_METADATA
  else if name = bs "BLOCK_COMPONENT" then some BLOCK_COMPONENT
  else if name = bs "BLOCK_WORKFLOW" then some BLOCK_WORKFLOW
  else none

/-- Python attribute access `protocol.<name>` for the integer constants: an
undefined name raises `AttributeError`. -/
def getattr_protocol (name : List Nat) : Except PyErr Nat :=
  match protocolAttr name with
  | some v => .ok v
  | none => .error (.attributeError (bs "module " ++ [39] ++ bs "doip_server.protocol" ++
      [39] ++ bs " has no attribute " ++ [39] ++ name ++ [39]))

/-- `handlers.handle_hello`: the metadata dict evaluates the four
`availableOperations` attributes in source order before the response is
built. -/
def handle_hello (msg : DOIPMessage) : Except PyErr DOIPMessage := do
  let hello ← getattr_protocol (bs "OP_HELLO")
  let retrieve ← getattr_protocol (bs "OP_RETRIEVE")
  let describe ← getattr_protocol (bs "OP_DESCRIBE")
  let invoke ← getattr_protocol (bs "OP_INVOKE")
  let metadata_block : JVal := .obj (jobjOf [
    (bs "operation", .str (bs "hello")),
    (bs "status", .str (bs "ok")),
    (bs "server", .str (bs "mardi_doip_server")),
    (bs "version", .num (DOIP_VERSION : Int)),
    (bs "availableOperations", .obj (jobjOf [
      (bs "hello", .num (hello : Int)), (bs "retrieve", .num (retrieve : Int)),
      (bs "describe", .num (describe : Int)), (bs "invoke", .num (invoke : Int))]))])
  .ok { version := DOIP_VERSION, msg_type := MSG_TYPE_RESPONSE, operation := OP_HELLO,
        flags := 0, object_id := msg.object_id, metadata_blocks := [metadata_block],
        component_blocks := [], workflow_blocks := [] }

/-- `handlers.handle_retrieve`: the `rocrate` element, a named element, or
the bare manifest. -/
def handle_retrieve (env : Env) (msg : DOIPMessage) : Except PyErr DOIPMessage := do
  let pid := pyUpperB msg.object_id
  let meta := msg.metadata_blocks.headD (.obj .nil)
  let element ← dictGet meta (bs "element")
  if element = some (.str (bs "rocrate")) then do
    let crate ←
      match get_component env pid (.str (bs "rocrate")) with
      | .ok r => Except.ok r.1
      | .error (.keyError _) => env.rocrateBuild pid
      | .error _ => Except.error (.keyError (bs "Component id not found: rocrate"))
    Except.ok { version := DOIP_VERSION, msg_type := MSG_TYPE_RESPONSE,
                operation := OP_RETRIEVE, flags := 0, object_id := pid,
                metadata_blocks := [],
                component_blocks := [{ component_id := bs "rocrate",
                                       content := crate,
                                       media_type := bs "application/zip",
                                       declared_size := some (crate.length : Int) }],
                workflow_blocks := [] }
  else if jTruthyO element then
    let e := element.getD .null
    match get_component env pid e with
    | .ok (content, media_type) =>
      Except.ok { version := DOIP_VERSION, msg_type := MSG_TYPE_RESPONSE,
                  operation := OP_RETRIEVE, flags := 0, object_id := pid,
                  metadata_blocks := [],
                  component_blocks := [{ component_id := jBytes e,
                                         content := content,
                                         media_type := jBytes media_type,
                                         declared_size := some (content.length : Int) }],
                  workflow_blocks := [] }
    | .error _ => Except.error (.keyError (bs "Component id not found: " ++ jToPyStr e))
  else do
    let fdo_json ← fetch_fdo_object env pid
    Except.ok { version := DOIP_VERSION, msg_type := MSG_TYPE_RESPONSE,
                operation := OP_RETRIEVE, flags := 0, object_id := pid,
                metadata_blocks := [fdo_json], component_blocks := [],
                workflow_blocks := [] }

/-- `handlers._requested_workflow`'s scan of one block list: the first JSON
object carrying a `"workflow"` key (the handlers treat blocks as objects;
only an object can carry the key). -/
def findWorkflowBlock : List JVal → Option (JVal × JVal)
  | [] => none
  | b :: rest =>
    match b with
    | .obj kvs =>
      match kvs.get (bs "workflow") with
      | some w => some (w, (kvs.get (bs "params")).getD (.obj .nil))
      | none => findWorkflowBlock rest
    | _ => findWorkflowBlock rest

/-- `handlers._requested_workflow`. -/
def requested_workflow (msg : DOIPMessage) : Except PyErr (JVal × JVal) :=
  match findWorkflowBlock msg.metadata_blocks with
  | some r => .ok r
  | none =>
    match findWorkflowBlock msg.workflow_blocks with
    | some r => .ok r
    | none => .error (.protocolError (bs "Workflow not specified in invoke request"))

/-- `declared_size=comp.get("size")`: the declared size field only ever
holds an integer or `None` observably (it is never serialized). -/
def jInt? : Option JVal → Option Int
  | some (.num n) => some n
  | _ => none

/-- The loop of `handle_invoke` over `result["derivedComponents"]`: each
entry's bytes are fetched from storage and framed as a component block. -/
def buildDerivedBlocks (env : Env) (qid : List Nat) : JArr → Except PyErr (List ComponentBlock)
  | .nil => .ok []
  | .cons comp rest => do
    let comp_id ←
      match jGet comp (bs "componentId") with
      | some v => Except.ok v
      | none => Except.error (.keyError (bs "componentId"))
    let content ← get_component_bytes env qid comp_id (jGet comp (bs "mediaType")) none
    let tl ← buildDerivedBlocks env qid rest
    .ok ({ component_id := jBytes comp_id,
           content := content,
           media_type := jBytes ((jGet comp (bs "mediaType")).getD
             (.str (bs "application/octet-stream"))),
           declared_size := jInt? (jGet comp (bs "size")) } :: tl)

/-- `handlers.handle_invoke`: only the equation-extraction workflow is
supported; derived components are fetched from storage and attached. -/
def handle_invoke (env : Env) (msg : DOIPMessage) : Except PyErr DOIPMessage := do
  let qid := msg.object_id
  let wp ← requested_workflow msg
  let workflow_name := wp.1
  let params := wp.2
  if workflow_name = .str (bs "equation_extraction") then do
    let result ← env.workflowRun qid params
    let dc ← dictGet result (bs "derivedComponents")
    let derived ←
      match dc.getD (.arr .nil) with
      | .arr xs => buildDerivedBlocks env qid xs
      | v => Except.error (.typeError ([39] ++ pyTypeName v ++ [39] ++
          bs " object is not iterable"))
    let metadata_block : JVal := .obj (jobjOf [
      (bs "operation", .str (bs "invoke")),
      (bs "workflow", workflow_name),
      (bs "result", result)])
    Except.ok { version := DOIP_VERSION, msg_type := MSG_TYPE_RESPONSE,
                operation := OP_INVOKE, flags := 0, object_id := qid,
                metadata_blocks := [metadata_block], component_blocks := derived,
                workflow_blocks := [result] }
  else
    .error (.protocolError (bs "Unsupported workflow " ++ jToPyStr workflow_name))

/-- `handlers.handle_list_ops`. -/
def handle_list_ops (msg : DOIPMessage) : Except PyErr DOIPMessage :=
  .ok { version := DOIP_VERSION, msg_type := MSG_TYPE_RESPONSE, operation := OP_LIST_OPS,
        flags := 0, object_id := msg.object_id,
        metadata_blocks := [.obj (jobjOf [
          (bs "operation", .str (bs "list_operations")),
          (bs "availableOperations", .obj (jobjOf [
            (bs "hello", .num (OP_HELLO : Int)), (bs "retrieve", .num (OP_RETRIEVE : Int)),
            (bs "invoke", .num (OP_INVOKE : Int))]))])],
        component_blocks := [], workflow_blocks := [] }

/-! ### Connection handling (doip_server/main.py) -/

/-- `main._metadata_operation_name`: the first string `"operation"` value
among the metadata blocks (`.get` on a non-dict block raises). -/
def metadata_operation_name : List JVal → Except PyErr (Option (List Nat))
  | [] => .ok none
  | meta :: rest => do
    let op_name ← dictGet meta (bs "operation")
    match op_name with
    | some (.str s) => .ok (some s)
    | _ => metadata_operation_name rest

/-- `main.dispatch`: requests only, routed by operation code or by the
metadata operation name. -/
def dispatch (env : Env) (msg : DOIPMessage) : Except PyErr DOIPMessage :=
  if msg.msg_type ≠ MSG_TYPE_REQUEST then
    .error (.protocolError (bs "Only request messages are supported"))
  else do
    let op_name ← metadata_operation_name msg.metadata_blocks
    if msg.operation = OP_HELLO ∨ op_name = some (bs "hello") then
      handle_hello msg
    else if msg.operation = OP_RETRIEVE ∨ op_name = some (bs "retrieve") then
      handle_retrieve env msg
    else if msg.operation = OP_INVOKE ∨ op_name = some (bs "invoke") then
      handle_invoke env msg
    else if msg.operation = OP_LIST_OPS ∨ op_name = some (bs "list_ops") ∨
        op_name = some (bs "list_operations") then
      handle_list_ops msg
    else
      .error (.protocolError (bs "Unsupported operation code " ++ natDec msg.operation))

/-- `main._error_message`: the error envelope for an exception raised while
handling a parsed message. -/
def error_message (msg : DOIPMessage) (exc : PyErr) : DOIPMessage :=
  { version := DOIP_VERSION, msg_type := MSG_TYPE_ERROR, operation := msg.operation,
    flags := 0, object_id := msg.object_id,
    metadata_blocks := [.obj (jobjOf [(bs "error", .str (excClassName exc)),
                                      (bs "message", .str (excStr exc))])],
    component_blocks := [], workflow_blocks := [] }

/-- `main._send_error`: the envelope written for a `ProtocolError` raised
while reading, with operation 0 and the caller's object id. -/
def send_error_message (object_id : List Nat) (exc : PyErr) : DOIPMessage :=
  { version := DOIP_VERSION, msg_type := MSG_TYPE_ERROR, operation := 0, flags := 0,
    object_id := object_id,
    metadata_blocks := [.obj (jobjOf [(bs "error", .str (excClassName exc)),
                                      (bs "message", .str (excStr exc))])],
    component_blocks := [], workflow_blocks := [] }

/-- The response `handle_connection` writes for one parsed message: the
handler's message, or `_error_message` for any exception `dispatch`
raises (`ProtocolError` and the catch-all `Exception` arm together cover
every modelled error). -/
def serverResponse (env : Env) (msg : DOIPMessage) : DOIPMessage :=
  match dispatch env msg with
  | .ok resp => resp
  | .error exc => error_message msg exc

/-- The bytes `handle_connection` writes in response to the first envelope
on a connection: a parsed message is dispatched and the response (or error
envelope) written; a `ProtocolError` from the reader produces `_send_error`
with an empty object id; an `IncompleteReadError` ends the loop silently;
any other reader exception (for instance `json.JSONDecodeError` from a bad
metadata body) escapes the `try` around the read, so the connection closes
with nothing written. -/
def connectionFirstWrite (env : Env) (stream : List Nat) : List Nat :=
  match read_doip_message stream with
  | .ok (msg, _) => (serverResponse env msg).to_bytes
  | .error (.protocolError m) => (send_error_message (bs "") (.protocolError m)).to_bytes
  | .error _ => []

/-! ### Compat listener (doip_server/main.py) -/

/-- `main._json_segment`: `json.dumps` with its default separators. -/
def json_segment (data : JVal) : List Nat := dumpsPy data

/-- `main._compat_response_from_doip`: a status JSON (gaining the first
component's id as `attributes.filename` when components are present)
followed by the raw component contents. -/
def compat_response_from_doip (msg : DOIPMessage) : List (List Nat) :=
  let status : JVal :=
    match msg.component_blocks with
    | [] => .obj (jobjOf [(bs "status", .str (bs "success")),
                          (bs "metadata", .arr (jarrOf msg.metadata_blocks))])
    | first :: _ => .obj (jobjOf [(bs "status", .str (bs "success")),
                          (bs "metadata", .arr (jarrOf msg.metadata_blocks)),
                          (bs "attributes", .obj (jobjOf [(bs "filename",
                            .str first.component_id)]))])
  json_segment status :: msg.component_blocks.map (fun c => c.content)

/-- Python `==` between a decoded JSON value and an int literal
(`True == 1`, `False == 0`). -/
def pyEqNum (v : JVal) (n : Int) : Bool :=
  match v with
  | .num m => m = n
  | .jbool b => (if b then (1 : Int) else 0) = n
  | _ => false

/-- The membership test `operation in (code, "UPPER", "lower", code)` of
`_process_compat_request` (a missing operation is in no tuple). -/
def compatOpMatches (operation : Option JVal) (code : Int) (upper lower : List Nat) : Bool :=
  match operation with
  | none => false
  | some v => pyEqNum v code || v = .str upper || v = .str lower

/-- `main._process_compat_request`: route a doipy JSON request to the DOIP
handlers.  A non-string `targetId` is stored as the message's object id in
Python; only its string form matters to any reachable behaviour, so the
model keeps the bytes of string targets and the empty string otherwise. -/
def process_compat_request (env : Env) (body : JVal) : Except PyErr (List (List Nat)) := do
  let t1 ← dictGet body (bs "targetId")
  let t2 ← dictGet body (bs "target_id")
  let target := pyOrO t1 t2
  let o1 ← dictGet body (bs "operationId")
  let o2 ← dictGet body (bs "operation_id")
  let operation := pyOrO o1 o2
  let a1 ← dictGet body (bs "attributes")
  let attributes := (pyOrO a1 (some (.obj JObj.nil))).getD .null
  let c1 ← dictGet attributes (bs "element")
  let c2 ← dictGet attributes (bs "componentId")
  let component := pyOrO c1 c2
  let object_id := jBytes ((pyOrO target (some (.str []))).getD .null)
  if compatOpMatches operation 1 (bs "HELLO") (bs "hello") then do
    let msg : DOIPMessage :=
      { version := DOIP_VERSION, msg_type := MSG_TYPE_REQUEST,
        operation := OP_HELLO, flags := 0, object_id := object_id,
        metadata_blocks := [.obj (jobjOf [(bs "operation", .str (bs "hello"))])],
        component_blocks := [], workflow_blocks := [] }
    let response ← handle_hello msg
    .ok (compat_response_from_doip response)
  else if compatOpMatches operation 2 (bs "RETRIEVE") (bs "retrieve") then do
    let msg : DOIPMessage :=
      { version := DOIP_VERSION, msg_type := MSG_TYPE_REQUEST,
        operation := OP_RETRIEVE, flags := 0, object_id := object_id,
        metadata_blocks := if jTruthyO component then
            [.obj (jobjOf [(bs "components", .arr (jarrOf [component.getD .null]))])]
          else [],
        component_blocks := [], workflow_blocks := [] }
    let response ← handle_retrieve env msg
    .ok (compat_response_from_doip response)
  else if compatOpMatches operation 5 (bs "INVOKE") (bs "invoke") then do
    let w1 ← dictGet attributes (bs "workflow")
    let w2 ← dictGet body (bs "workflow")
    let workflow := (pyOrO (pyOrO w1 w2)
      (some (.str (bs "equation_extraction")))).getD .null
    let p1 ← dictGet attributes (bs "params")
    let p2 ← dictGet body (bs "params")
    let params := (pyOrO (pyOrO p1 p2) (some (.obj JObj.nil))).getD .null
    let msg : DOIPMessage :=
      { version := DOIP_VERSION, msg_type := MSG_TYPE_REQUEST,
        operation := OP_INVOKE, flags := 0, object_id := object_id,
        metadata_blocks := [.obj (jobjOf [(bs "workflow", workflow), (bs "params", params)])],
        component_blocks := [], workflow_blocks := [] }
    let response ← handle_invoke env msg
    .ok (compat_response_from_doip response)
  else
    .ok [json_segment (.obj (jobjOf [(bs "status", .str (bs "error")),
      (bs "message", .str (bs "Unsupported operation " ++
        jToPyStr (operation.getD .null)))]))]

/-- `main._read_segments`, fuelled: read a 4-byte length, stop on zero,
else read that many bytes and continue.  Every round consumes at least
four bytes, so `stream.length + 1` rounds always suffice. -/
def readSegmentsF : Nat → List Nat → Except PyErr (List (List Nat))
  | 0, _ => .error .incompleteRead
  | f + 1, s => do
    let lb ← readexactly 4 s
    let length := rd32at lb.1 0
    if length = 0 then .ok []
    else do
      let d ← readexactly length lb.2
      let rest ← readSegmentsF f d.2
      .ok (d.1 :: rest)

/-- `main._read_segments` on a finite stream. -/
def read_segments (s : List Nat) : Except PyErr (List (List Nat)) :=
  readSegmentsF (s.length + 1) s

/-- `main._write_segments`: length-prefixed segments ending with an empty
terminator. -/
def write_segments (segments : List (List Nat)) : List Nat :=
  (segments.map (fun seg => be32 seg.length ++ seg)).flatten ++ be32 0

/-- The bytes `handle_compat_connection` writes for one connection: any
read failure, an empty segment list, an undecodable first segment, or an
exception inside `_process_compat_request` closes the socket with nothing
written; otherwise the processed segments are written. -/
def handle_compat_connection_bytes (env : Env) (stream : List Nat) : List Nat :=
  match read_segments stream with
  | .error _ => []
  | .ok [] => []
  | .ok (seg0 :: _) =>
    match loads seg0 with
    | none => []
    | some request_json =>
      match process_compat_request env request_json with
      | .ok response_segments => write_segments response_segments
      | .error _ => []

/-! ### Case-folding and scanning lemmas -/

theorem byteUpper_byteLower (b : Nat) : byteUpper (byteLower b) = byteUpper b := by
  unfold byteLower
  by_cases h1 : 65 ≤ b ∧ b ≤ 90
  · rw [if_pos (by simp only [Bool.and_eq_true, decide_eq_true_eq]; exact h1)]
    unfold byteUpper
    rw [if_pos (by simp only [Bool.and_eq_true, decide_eq_true_eq]; omega),
        if_neg (by simp only [Bool.and_eq_true, decide_eq_true_eq]; omega)]
    omega
  · rw [if_neg (by simp only [Bool.and_eq_true, decide_eq_true_eq]; exact h1)]

theorem pyUpperB_pyLowerB (x : List Nat) : pyUpperB (pyLowerB x) = pyUpperB x := by
  unfold pyUpperB pyLowerB
  rw [List.map_map]
  exact List.map_congr_left (fun b _ => byteUpper_byteLower b)

/-! ### The claims -/

/-- C1: the spec says the hello operation never fails and returns the
capability block; in the code `handle_hello` evaluates the undefined
`protocol.OP_DESCRIBE` while building that block, so every hello request
raises `AttributeError` instead of producing any response. -/
theorem C1_hello_always_raises (msg : DOIPMessage) :
    handle_hello msg = .error (.attributeError (bs "module " ++ [39] ++
      bs "doip_server.protocol" ++ [39] ++ bs " has no attribute " ++ [39] ++
      bs "OP_DESCRIBE" ++ [39])) := rfl

/-- C8: the four concrete shard equations of the spec, and invariance of
sharding under lower-casing of the identifier. -/
theorem C8_shard_equations :
    shard_qid (bs "Q4") = .ok (bs "00/00/04/Q4") ∧
    shard_qid (bs "Q123") = .ok (bs "00/01/23/Q123") ∧
    shard_qid (bs "Q12345") = .ok (bs "01/23/45/Q12345") ∧
    shard_qid (bs "Q123543") = .ok (bs "12/35/43/Q123543") ∧
    ∀ x : List Nat, shard_qid (pyLowerB x) = shard_qid x := by
  refine ⟨rfl, rfl, rfl, rfl, fun x => ?_⟩
  unfold shard_qid
  rw [pyUpperB_pyLowerB]

/-- C9: `_extract_qid` accepts exactly the identifiers whose upper-casing
starts with `Q` followed by at least one decimal digit, returns `Q` with
the maximal digit run (tolerating any trailing suffix), and fails with
`ValueError` when the digit run is empty or the leading `Q` is missing. -/
theorem C9_extract_qid (x : List Nat) :
    (∀ digits tl, pyUpperB x = 81 :: digits ++ tl → digits ≠ [] →
      digits.all isDigitB = true → (∀ b ∈ tl.head?, isDigitB b = false) →
      extract_qid x = .ok (81 :: digits)) ∧
    ((pyUpperB x).take 1 = [81] → (∀ b ∈ ((pyUpperB x).drop 1).head?, isDigitB b = false) →
      extract_qid x = .error (.valueError (bs "invalid identifier: no digits after Q"))) ∧
    ((pyUpperB x).take 1 ≠ [81] →
      extract_qid x = .error (.valueError (bs "invalid identifier: must start with Q"))) := by
  refine ⟨?_, ?_, ?_⟩
  · intro digits tl hshape hne hall hhd
    unfold extract_qid
    rw [hshape]
    rw [if_neg (by simp)]
    have hdrop : (81 :: digits ++ tl).drop 1 = digits ++ tl := rfl
    have htw := (takeWhile_all_append isDigitB digits tl
      (fun b hb => by have := List.all_eq_true.mp hall b hb; simpa using this)
      (fun b hb => hhd b hb)).1
    rw [hdrop, htw]
    have htake : (81 :: digits ++ tl).take (1 + digits.length) = 81 :: digits := by
      have ht2 : (digits ++ tl).take digits.length = digits := List.take_left' rfl
      rw [Nat.add_comm]
      show 81 :: (digits ++ tl).take digits.length = 81 :: digits
      rw [ht2]
    rw [htake]
    rw [if_neg (by simp [hne])]
  · intro h1 h2
    unfold extract_qid
    rw [if_neg (by simp [h1])]
    have hemp : ((pyUpperB x).drop 1).takeWhile isDigitB = [] := by
      cases hd : (pyUpperB x).drop 1 with
      | nil => rfl
      | cons b t =>
        have hb := h2 b (by rw [hd]; rfl)
        simp [List.takeWhile_cons, hb]
    rw [hemp]
    have hq : (pyUpperB x).take (1 + 0) = [81] := by simpa using h1
    simp only [List.length_nil]
    rw [if_pos (by rw [hq]; rfl)]
  · intro h1
    unfold extract_qid
    rw [if_pos h1]

/-- C10: a compat connection whose segments cannot be read, whose stream
carries no segment before the terminator, or whose first segment is not
decodable as JSON is closed with nothing written back. -/
theorem C10_compat_silent_close (env : Env) (stream : List Nat)
    (h : (∃ e, read_segments stream = .error e) ∨ read_segments stream = .ok [] ∨
      ∃ seg0 rest, read_segments stream = .ok (seg0 :: rest) ∧ loads seg0 = none) :
    handle_compat_connection_bytes env stream = [] := by
  unfold handle_compat_connection_bytes
  rcases h with ⟨e, he⟩ | he | ⟨seg0, rest, he, hl⟩
  · rw [he]
  · rw [he]
  · rw [he]
    show (match loads seg0 with
      | none => ([] : List Nat)
      | some request_json =>
        match process_compat_request env request_json with
        | .ok response_segments => write_segments response_segments
        | .error _ => []) = []
    rw [hl]

/-- Witness for C10: a stream whose single segment is the byte `x`, which
is not JSON; the compat listener answers with nothing. -/
theorem C10_compat_silent_close_witness :
    handle_compat_connection_bytes {} (be32 1 ++ [120] ++ be32 0) = [] :=
  C10_compat_silent_close {} (be32 1 ++ [120] ++ be32 0)
    (Or.inr (Or.inr ⟨[120], [], rfl, rfl⟩))

/-- Witness for C9: `q42abc` upper-cases to `Q42ABC`, accepted with base
identifier `Q42`. -/
theorem C9_extract_qid_witness : extract_qid (bs "q42abc") = .ok (bs "Q42") :=
  (C9_extract_qid (bs "q42abc")).1 (bs "42") (bs "ABC") (by decide) (by decide)
    (by decide) (by decide)

/-- C2's counterexample message: well formed in memory, with the component
block keeping the dataclass defaults (`declared_size=None`). -/
def c2msg : DOIPMessage :=
  { version := 2, msg_type := 1, operation := 2, flags := 0, object_id := bs "Q1",
    metadata_blocks := [],
    component_blocks := [{ component_id := bs "c", content := [120] }],
    workflow_blocks := [] }

/-- What the decoder actually returns for `c2msg`: the declared size has
been canonicalized to the content length. -/
def c2msgDecoded : DOIPMessage :=
  { c2msg with
    component_blocks := [{ component_id := bs "c", content := [120],
                           declared_size := some (1 : Int) }] }

/-- C2 counterexample: decoding the encoding of `c2msg` does not return it
bit-exactly — the component comes back with `declared_size` set from the
wire, so the round trip fails on messages built with the dataclass
defaults. -/
theorem C2_roundtrip_counterexample :
    read_doip_message c2msg.to_bytes = .ok (c2msgDecoded, []) ∧
    read_doip_message c2msg.to_bytes ≠ .ok (c2msg, []) := by
  refine ⟨rfl, ?_⟩
  intro h
  have h2 := Except.ok.inj ((rfl :
    read_doip_message c2msg.to_bytes = Except.ok (c2msgDecoded, [])).symm.trans h)
  exact absurd (congrArg Prod.fst h2) (by decide)

/-- C2 (amended): for every well-formed in-memory message — header fields
within their struct widths, JSON blocks that are objects, components with a
nonempty media type and `declared_size` equal to the content length —
decoding the encoding returns the message bit-exactly and consumes the
whole stream. -/
theorem C2_roundtrip_wf (m : DOIPMessage) (h : wfMsg m = true) :
    read_doip_message m.to_bytes = .ok (m, []) :=
  read_doip_message_to_bytes m h

/-- C2's witness message: one block of each kind, all fields in range. -/
def c2wit : DOIPMessage :=
  { version := 2, msg_type := 1, operation := 2, flags := 0, object_id := bs "Q1",
    metadata_blocks := [.obj (jobjOf [(bs "element", .str (bs "primary"))])],
    component_blocks := [{ component_id := bs "c", content := [1, 2, 3],
                           media_type := bs "text/plain",
                           declared_size := some (3 : Int) }],
    workflow_blocks := [.obj (jobjOf [(bs "workflow", .str (bs "w"))])] }

/-- Witness for C2: the amended round trip at a concrete message. -/
theorem C2_roundtrip_wf_witness :
    wfMsg c2wit = true ∧ read_doip_message c2wit.to_bytes = .ok (c2wit, []) :=
  ⟨by decide, C2_roundtrip_wf c2wit (by decide)⟩

/-- C3's counterexample stream: a valid envelope whose component block body
carries one surplus byte after the declared content. -/
def c3stream : List Nat :=
  [2, 1, 2, 0] ++ be16 0 ++ be32 15 ++ ([2] ++ be32 10 ++ [0, 0, 0, 0, 0, 0, 0, 1, 120, 99])

/-- The message `c3stream` decodes to: the surplus byte is gone and the
empty media type has been canonicalized. -/
def c3decoded : DOIPMessage :=
  { version := 2, msg_type := 1, operation := 2, flags := 0, object_id := [],
    metadata_blocks := [],
    component_blocks := [{ component_id := [], content := [120],
                           media_type := bs "application/octet-stream",
                           declared_size := some (1 : Int) }],
    workflow_blocks := [] }

/-- C3 counterexample: `c3stream` decodes successfully, but re-encoding the
decoded message does not reproduce it. -/
theorem C3_reencode_counterexample :
    read_doip_message c3stream = .ok (c3decoded, []) ∧ c3decoded.to_bytes ≠ c3stream :=
  ⟨rfl, by decide⟩

/-- C3 (amended): re-encoding reproduces `S` for every `S` that is the
strict encoding of a well-formed message; outside that image the decoder
tolerates non-canonical streams, which re-encode differently. -/
theorem C3_reencode_encoded (S : List Nat)
    (h : ∃ m, wfMsg m = true ∧ S = DOIPMessage.to_bytes m) :
    ∃ m rest, read_doip_message S = .ok (m, rest) ∧
      DOIPMessage.to_bytes m ++ rest = S := by
  obtain ⟨m, hm, rfl⟩ := h
  exact ⟨m, [], read_doip_message_to_bytes m hm, by simp⟩

/-- C3's witness message. -/
def c3wit : DOIPMessage :=
  { version := 2, msg_type := 2, operation := 1, flags := 0, object_id := bs "Q7",
    metadata_blocks := [.obj (jobjOf [(bs "status", .str (bs "ok"))])],
    component_blocks := [{ component_id := bs "d", content := [9],
                           media_type := bs "application/pdf",
                           declared_size := some (1 : Int) }],
    workflow_blocks := [] }

/-- Witness for C3: the amended statement at a concrete encoded stream. -/
theorem C3_reencode_encoded_witness :
    ∃ m rest, read_doip_message (DOIPMessage.to_bytes c3wit) = .ok (m, rest) ∧
      DOIPMessage.to_bytes m ++ rest = DOIPMessage.to_bytes c3wit :=
  C3_reencode_encoded (DOIPMessage.to_bytes c3wit) ⟨c3wit, by decide, rfl⟩

/-- General evaluation of `_decode_component_block` on a body whose three
length fields are in struct range: the declared content length governs the
result, and all bytes after the declared content are ignored. -/
theorem decode_component_block_general (cid mt cont2 : List Nat) (n : Nat)
    (hidl : cid.length < 65536) (hml : mt.length < 65536) (hn : n < 4294967296) :
    decode_component_block (be16 cid.length ++ cid ++ be16 mt.length ++ mt ++
      be32 n ++ cont2) =
      (if (cont2.take n).length ≠ n then
        .error (.protocolError (bs "Component content length mismatch"))
      else .ok { component_id := cid, content := cont2.take n,
                 media_type := if mt = [] then bs "application/octet-stream" else mt,
                 declared_size := some (n : Int) }) := by
  have hgrp : be16 cid.length ++ cid ++ be16 mt.length ++ mt ++ be32 n ++ cont2 =
      (be16 cid.length ++ cid) ++ ((be16 mt.length ++ mt) ++ (be32 n ++ cont2)) := by
    simp [List.append_assoc]
  rw [hgrp]
  have e1 : ((be16 cid.length ++ cid) ++ ((be16 mt.length ++ mt) ++
      (be32 n ++ cont2))).length = 8 + cid.length + mt.length + cont2.length := by
    simp [be16, be32]
    omega
  have hA : rd16at ((be16 cid.length ++ cid) ++ ((be16 mt.length ++ mt) ++
      (be32 n ++ cont2))) 0 = cid.length := by
    rw [List.append_assoc]
    exact rd16at_be16 _ _ hidl
  have hB : (((be16 cid.length ++ cid) ++ ((be16 mt.length ++ mt) ++
      (be32 n ++ cont2)))).drop 2 = cid ++ ((be16 mt.length ++ mt) ++
      (be32 n ++ cont2)) := by
    rw [List.append_assoc]
    exact List.drop_left' (by simp [be16] <;> omega)
  have hC : (cid ++ ((be16 mt.length ++ mt) ++ (be32 n ++ cont2))).take cid.length =
      cid := List.take_left' rfl
  have hD : (((be16 cid.length ++ cid) ++ ((be16 mt.length ++ mt) ++
      (be32 n ++ cont2)))).drop (2 + cid.length) =
      (be16 mt.length ++ mt) ++ (be32 n ++ cont2) :=
    List.drop_left' (by simp [be16] <;> omega)
  have hE : rd16at ((be16 cid.length ++ cid) ++ ((be16 mt.length ++ mt) ++
      (be32 n ++ cont2))) (2 + cid.length) = mt.length := by
    rw [rd16at_drop, hD, List.append_assoc]
    exact rd16at_be16 _ _ hml
  have hF : (((be16 cid.length ++ cid) ++ ((be16 mt.length ++ mt) ++
      (be32 n ++ cont2)))).drop (2 + cid.length + 2) =
      mt ++ (be32 n ++ cont2) := by
    have hdd : (((be16 cid.length ++ cid) ++ ((be16 mt.length ++ mt) ++
        (be32 n ++ cont2)))).drop (2 + cid.length + 2) =
        ((((be16 cid.length ++ cid) ++ ((be16 mt.length ++ mt) ++
        (be32 n ++ cont2)))).drop (2 + cid.length)).drop 2 := by
      rw [List.drop_drop]
      try congr 1
      try omega
    rw [hdd, hD, List.append_assoc]
    exact List.drop_left' (by simp [be16] <;> omega)
  have hG : (mt ++ (be32 n ++ cont2)).take mt.length = mt := List.take_left' rfl
  have hH : (((be16 cid.length ++ cid) ++ ((be16 mt.length ++ mt) ++
      (be32 n ++ cont2)))).drop (2 + cid.length + 2 + mt.length) =
      be32 n ++ cont2 := by
    have hdd : (((be16 cid.length ++ cid) ++ ((be16 mt.length ++ mt) ++
        (be32 n ++ cont2)))).drop (2 + cid.length + 2 + mt.length) =
        ((((be16 cid.length ++ cid) ++ ((be16 mt.length ++ mt) ++
        (be32 n ++ cont2)))).drop (2 + cid.length)).drop (2 + mt.length) := by
      rw [List.drop_drop]
      try congr 1
      try omega
    rw [hdd, hD]
    exact List.drop_left' (by simp [be16] <;> omega)
  have hI : rd32at ((be16 cid.length ++ cid) ++ ((be16 mt.length ++ mt) ++
      (be32 n ++ cont2))) (2 + cid.length + 2 + mt.length) = n := by
    rw [rd32at_drop, hH]
    exact rd32at_be32 _ _ hn
  have hJ : (((be16 cid.length ++ cid) ++ ((be16 mt.length ++ mt) ++
      (be32 n ++ cont2)))).drop (2 + cid.length + 2 + mt.length + 4) = cont2 := by
    have hdd : (((be16 cid.length ++ cid) ++ ((be16 mt.length ++ mt) ++
        (be32 n ++ cont2)))).drop (2 + cid.length + 2 + mt.length + 4) =
        ((((be16 cid.length ++ cid) ++ ((be16 mt.length ++ mt) ++
        (be32 n ++ cont2)))).drop (2 + cid.length + 2 + mt.length)).drop 4 := by
      rw [List.drop_drop]
      try congr 1
      try omega
    rw [hdd, hH]
    exact List.drop_left' (by simp [be32] <;> omega)
  unfold decode_component_block
  rw [if_neg (by rw [e1]; omega)]
  simp only [hA, hB, hC, hD, hE, hF, hG, hH, hI, hJ]
  rw [if_neg (by rw [e1]; omega), if_neg (by rw [e1]; omega)]

/-- C6 counterexample: a nine-byte component body — the eight-byte minimal
frame plus one surplus trailing byte — decodes successfully, so body length
need not equal `2+|id|+2+|media|+4+|content|` and surplus bytes yield no
`MalformedFrame`. -/
theorem C6_component_surplus_counterexample :
    decode_component_block [0, 0, 0, 0, 0, 0, 0, 0, 99] =
      .ok { component_id := [], content := [],
            media_type := bs "application/octet-stream",
            declared_size := some (0 : Int) } ∧
    ([0, 0, 0, 0, 0, 0, 0, 0, 99] : List Nat).length ≠ 2 + 0 + 2 + 0 + 4 + 0 :=
  ⟨rfl, by decide⟩

/-- C6 (amended): a component body made of the length-prefixed fields
decodes successfully even with surplus trailing bytes (the decoder
canonicalizes an empty media type and sets `declared_size` from the wire),
while a declared content length exceeding the remaining bytes is rejected
with `ProtocolError`. -/
theorem C6_component_length_behaviour (cid mt cont extra : List Nat) (n : Nat)
    (hidl : cid.length < 65536) (hml : mt.length < 65536)
    (hcl : cont.length < 4294967296) (hn : n < 4294967296) (hlt : cont.length < n) :
    (decode_component_block (be16 cid.length ++ cid ++ be16 mt.length ++ mt ++
        be32 cont.length ++ (cont ++ extra)) =
      .ok { component_id := cid, content := cont,
            media_type := if mt = [] then bs "application/octet-stream" else mt,
            declared_size := some (cont.length : Int) }) ∧
    (decode_component_block (be16 cid.length ++ cid ++ be16 mt.length ++ mt ++
        be32 n ++ cont) =
      .error (.protocolError (bs "Component content length mismatch"))) := by
  constructor
  · rw [decode_component_block_general cid mt (cont ++ extra) cont.length hidl hml hcl]
    have ht : (cont ++ extra).take cont.length = cont := List.take_left' rfl
    rw [ht]
    rw [if_neg (by simp)]
  · rw [decode_component_block_general cid mt cont n hidl hml hn]
    have ht : cont.take n = cont := List.take_of_length_le (by omega)
    rw [ht, if_pos (by omega)]

/-- Witness for C6: a concrete body with one surplus byte decodes, and the
same fields with an over-declared content length are rejected. -/
theorem C6_component_length_behaviour_witness :
    (decode_component_block (be16 (bs "c").length ++ bs "c" ++ be16 ([] : List Nat).length ++
        [] ++ be32 ([7] : List Nat).length ++ ([7] ++ [9])) =
      .ok { component_id := bs "c", content := [7],
            media_type := bs "application/octet-stream",
            declared_size := some (1 : Int) }) ∧
    (decode_component_block (be16 (bs "c").length ++ bs "c" ++ be16 ([] : List Nat).length ++
        [] ++ be32 5 ++ [7]) =
      .error (.protocolError (bs "Component content length mismatch"))) := by
  have h := C6_component_length_behaviour (bs "c") [] [7] [9] 5 (by decide) (by decide)
    (by decide) (by decide) (by decide)
  exact ⟨by rw [h.1]; rfl, h.2⟩

/-- C5's manifest: one component, `primary`; nothing named `nope`. -/
def c5component : JVal := .obj (jobjOf [(bs "componentId", .str (bs "primary"))])

def c5manifest : JVal :=
  .obj (jobjOf [(bs "kernel",
    .obj (jobjOf [(bs "fdo:hasComponent", .arr (jarrOf [c5component]))]))])

/-- C5's environment: the manifest is served for `Q123` and storage is up. -/
def c5env : Env :=
  { fdoManifest := fun pid =>
      if pid = bs "Q123" then .ok c5manifest else .error (.httpError []),
    lakefsAvailable := true }

/-- C5's request: retrieve `Q123` with metadata `{"element": "nope"}`. -/
def c5msg : DOIPMessage :=
  { version := 2, msg_type := 1, operation := 2, flags := 0, object_id := bs "Q123",
    metadata_blocks := [.obj (jobjOf [(bs "element", .str (bs "nope"))])],
    component_blocks := [], workflow_blocks := [] }

/-- C5 counterexample: the error envelope for an unknown component carries
the Python exception class name `KeyError` and the quoted `str(exc)` text,
not the taxonomy kind `ComponentNotFound` the spec promises. -/
theorem C5_unknown_component_counterexample :
    serverResponse c5env c5msg =
      { version := 2, msg_type := MSG_TYPE_ERROR, operation := 2, flags := 0,
        object_id := bs "Q123",
        metadata_blocks := [.obj (jobjOf [(bs "error", .str (bs "KeyError")),
          (bs "message", .str (39 :: (bs "Component id not found: nope" ++ [39])))])],
        component_blocks := [], workflow_blocks := [] } ∧
    (match (serverResponse c5env c5msg).metadata_blocks with
      | [.obj kvs] => JObj.get kvs (bs "error")
      | _ => none) ≠ some (.str (bs "ComponentNotFound")) :=
  ⟨rfl, by decide⟩

/-- C5 (amended): a retrieve request naming a component the manifest does
not contain is answered with an error envelope whose sole metadata block is
`{error: "KeyError", message: "'Component id not found: <element>'"}` —
the error field carries the Python exception class name, not a taxonomy
kind. -/
theorem C5_unknown_component_envelope (env : Env) (oid element : List Nat) (M : JVal)
    (hoid : pyUpperB oid = oid)
    (hM : env.fdoManifest oid = .ok M)
    (hfind : find_component (.str element) M = none)
    (hne : element ≠ []) (hnr : element ≠ bs "rocrate") :
    serverResponse env
      { version := DOIP_VERSION, msg_type := MSG_TYPE_REQUEST, operation := OP_RETRIEVE,
        flags := 0, object_id := oid,
        metadata_blocks := [.obj (jobjOf [(bs "element", .str element)])],
        component_blocks := [], workflow_blocks := [] } =
      { version := DOIP_VERSION, msg_type := MSG_TYPE_ERROR, operation := OP_RETRIEVE,
        flags := 0, object_id := oid,
        metadata_blocks := [.obj (jobjOf [(bs "error", .str (bs "KeyError")),
          (bs "message", .str (39 :: (bs "Component id not found: " ++ element) ++ [39]))])],
        component_blocks := [], workflow_blocks := [] } := by
  have hg : get_component env oid (.str element) =
      .error (.keyError (bs "component-not-found:" ++ element)) := by
    unfold get_component fetch_fdo_object
    rw [hoid, hM]
    simp only [Bind.bind, Except.bind]
    rw [hfind]
    rfl
  have hr : handle_retrieve env
      { version := DOIP_VERSION, msg_type := MSG_TYPE_REQUEST, operation := OP_RETRIEVE,
        flags := 0, object_id := oid,
        metadata_blocks := [.obj (jobjOf [(bs "element", .str element)])],
        component_blocks := [], workflow_blocks := [] } =
      .error (.keyError (bs "Component id not found: " ++ element)) := by
    unfold handle_retrieve
    simp only [Bind.bind, Except.bind, List.headD, dictGet, jobjOf, JObj.get,
      if_pos rfl]
    rw [hoid]
    rw [if_neg (by simp [hnr])]
    rw [if_pos (by simp [jTruthyO, jTruthy, hne])]
    simp only [if_true, Option.getD_some]
    rw [hg]
    rfl
  have hd : dispatch env
      { version := DOIP_VERSION, msg_type := MSG_TYPE_REQUEST, operation := OP_RETRIEVE,
        flags := 0, object_id := oid,
        metadata_blocks := [.obj (jobjOf [(bs "element", .str element)])],
        component_blocks := [], workflow_blocks := [] } =
      .error (.keyError (bs "Component id not found: " ++ element)) := by
    have hstep : dispatch env
        { version := DOIP_VERSION, msg_type := MSG_TYPE_REQUEST, operation := OP_RETRIEVE,
          flags := 0, object_id := oid,
          metadata_blocks := [.obj (jobjOf [(bs "element", .str element)])],
          component_blocks := [], workflow_blocks := [] } =
        handle_retrieve env
        { version := DOIP_VERSION, msg_type := MSG_TYPE_REQUEST, operation := OP_RETRIEVE,
          flags := 0, object_id := oid,
          metadata_blocks := [.obj (jobjOf [(bs "element", .str element)])],
          component_blocks := [], workflow_blocks := [] } := rfl
    rw [hstep]
    exact hr
  unfold serverResponse
  rw [hd]
  rfl

/-- Witness for C5: the amended envelope at the concrete environment and
request of the counterexample. -/
theorem C5_unknown_component_envelope_witness :
    serverResponse c5env c5msg =
      { version := DOIP_VERSION, msg_type := MSG_TYPE_ERROR, operation := OP_RETRIEVE,
        flags := 0, object_id := bs "Q123",
        metadata_blocks := [.obj (jobjOf [(bs "error", .str (bs "KeyError")),
          (bs "message", .str (39 :: (bs "Component id not found: " ++ bs "nope") ++ [39]))])],
        component_blocks := [], workflow_blocks := [] } :=
  C5_unknown_component_envelope c5env (bs "Q123") (bs "nope") c5manifest
    (by decide) rfl (by decide) (by decide) (by decide)

/-- C7's stream: a valid header and a metadata block whose one-byte body
`{` is not valid JSON. -/
def c7stream : List Nat := [2, 1, 1, 0] ++ be16 0 ++ be32 6 ++ ([1] ++ be32 1 ++ [123])

/-- C7: a metadata body that is not valid JSON makes `read_doip_message`
raise `JSONDecodeError`, which is not a `ProtocolError`; the connection
handler catches only `ProtocolError` and `IncompleteReadError` around the
read, so the promised error envelope with object-id "" is never written —
the connection just closes.  A genuine `ProtocolError` by contrast does
produce a nonempty envelope. -/
theorem C7_invalid_json_no_envelope :
    read_doip_message c7stream = .error .jsonDecodeError ∧
    (∀ env : Env, connectionFirstWrite env c7stream = []) ∧
    (send_error_message (bs "") (.protocolError (bs "x"))).to_bytes ≠ [] :=
  ⟨rfl, fun _ => rfl, by decide⟩

/-- C4's compat request: retrieve `Q123` with `attributes.element` naming
the stored component `primary`. -/
def c4request : JVal :=
  .obj (jobjOf [(bs "targetId", .str (bs "Q123")),
    (bs "operationId", .num 2),
    (bs "attributes", .obj (jobjOf [(bs "element", .str (bs "primary"))]))])

/-- C4's manifest: `Q123` has the component `primary` as a PDF. -/
def c4manifest : JVal :=
  .obj (jobjOf [(bs "kernel",
    .obj (jobjOf [(bs "fdo:hasComponent",
      .arr (jarrOf [.obj (jobjOf [(bs "componentId", .str (bs "primary")),
        (bs "mediaType", .str (bs "application/pdf"))])]))]))])

/-- C4's environment: the manifest resolves and the sharded PDF object is
present in storage under the exact key the code derives. -/
def c4env : Env :=
  { fdoManifest := fun pid =>
      if pid = bs "Q123" then .ok c4manifest else .error (.httpError []),
    lakefsAvailable := true,
    blobGet := fun key =>
      if key = bs "main/00/01/23/Q123/components/primary.pdf" then some (bs "PDF")
      else none }

/-- C4: the compat translation stores the requested component under the
metadata key `"components"`, but `handle_retrieve` reads `"element"`, so
the server answers a compat retrieve with the bare manifest — one status
segment, no `attributes.filename`, no component bytes.  The same
environment does serve the component when the metadata block uses
`"element"`, showing the translation key is the only obstacle. -/
theorem C4_compat_retrieve_drops_component :
    handle_compat_connection_bytes c4env (write_segments [dumpsC c4request]) =
      write_segments [json_segment (.obj (jobjOf [(bs "status", .str (bs "success")),
        (bs "metadata", .arr (jarrOf [c4manifest]))]))] ∧
    handle_retrieve c4env
      { version := 2, msg_type := 1, operation := 2, flags := 0,
        object_id := bs "Q123",
        metadata_blocks := [.obj (jobjOf [(bs "element", .str (bs "primary"))])],
        component_blocks := [], workflow_blocks := [] } =
      .ok { version := 2, msg_type := 2, operation := 2, flags := 0,
            object_id := bs "Q123", metadata_blocks := [],
            component_blocks := [{ component_id := bs "primary",
                                   content := bs "PDF",
                                   media_type := bs "application/pdf",
                                   declared_size := some (3 : Int) }],
            workflow_blocks := [] } :=
  ⟨rfl, rfl⟩

end Doip
